import Mathlib

/-!
Shallow embedding of the transactional inventory/ledger core of the
`m2_im_project` retail POS repository, together with proofs checking the
natural-language specification against the code.

The embedding translates the Prisma-transaction bodies of the API routes
(`src/pages/api/sales/today.js`, `src/pages/api/sales/[id].js`,
`src/pages/api/inventory/adjust.js`, `src/pages/api/inventory/convert`,
`src/pages/api/supply/*.js`, `src/pages/api/customers/[id]/payment`,
`src/pages/api/suppliers/[id]/payment`, `src/pages/api/purchase-orders/*`)
into pure state-passing functions.  A `prisma.$transaction` that throws is
modelled by returning the original state together with the error (full
rollback), which is exactly the observable behaviour of the route.

Conventions:
- money (DECIMAL columns, JS floats) is modelled by `Rat`;
- quantities and stock levels (JS numbers) by `Int`;
- `NULL`able columns by `Option`;
- JS falsy-coalescing `x || d` on numbers by a match that sends both
  `none` and `0` to the default `d`.
-/

namespace M2IM

/-- Money amounts (DECIMAL columns / JS floats) modelled exactly. -/
abbrev Money := Rat

/-- Row of the `products` table (fields used by the core logic). -/
structure Product where
  product_id : Nat
  unit_price : Money
  quantity_per_case : Option Int
deriving DecidableEq, Repr

/-- Row of the `inventory` table: one stock batch of a product. -/
structure Inventory where
  inventory_id : Nat
  product_id : Nat
  current_stock : Int
  is_active : Bool
  expiration_date : Option Int
deriving DecidableEq, Repr

/-- Row of the `customers` table (fields used by the core logic). -/
structure Customer where
  customer_id : Nat
  credit_balance : Money
deriving DecidableEq, Repr

/-- Row of the `suppliers` table (fields used by the core logic). -/
structure Supplier where
  supplier_id : Nat
  payable_balance : Money
deriving DecidableEq, Repr

/-- The `sale_status` values the code writes. -/
inductive SaleStatus where
  | PAID | PARTIAL | UNPAID
deriving DecidableEq, Repr

/-- Row of the `sale_details` table. -/
structure SaleDetail where
  product_id : Nat
  quantity : Int
  unit_price : Money
deriving DecidableEq, Repr

/-- Row of the `sales` table with its owned detail lines. -/
structure Sale where
  sale_id : Nat
  customer_id : Option Nat
  total_amount : Money
  amount_paid : Money
  sale_status : SaleStatus
  is_active : Bool
  sale_details : List SaleDetail
deriving DecidableEq, Repr

/-- The `change_type` values written to `stock_log` by the routes. -/
inductive ChangeType where
  | SALE | RETURN | ADJUSTMENT | CONVERSION | IN | OUT | PURCHASE
deriving DecidableEq, Repr

/-- Row of the append-only `stock_log` table. -/
structure StockLog where
  product_id : Nat
  change_type : ChangeType
  quantity : Int
deriving DecidableEq, Repr

/-- The `account_type` values written to `account_ledger`. -/
inductive AccountType where
  | customer | supplier
deriving DecidableEq, Repr

/-- The `reference_type` values written to `account_ledger`. -/
inductive RefType where
  | SALE | VOID_SALE | PAYMENT | PURCHASE_ORDER | CANCELLED_PO
deriving DecidableEq, Repr

/-- Row of the append-only `account_ledger` table. -/
structure LedgerEntry where
  account_type : AccountType
  account_id : Nat
  reference_type : RefType
  reference_id : Option Nat
  debit : Money
  credit : Money
deriving DecidableEq, Repr

/-- The `po_status` values of `purchase_orders`. -/
inductive PoStatus where
  | PENDING | RECEIVED | CANCELLED
deriving DecidableEq, Repr

/-- Row of the `purchase_order_details` table. -/
structure PurchaseOrderDetail where
  po_detail_id : Nat
  product_id : Nat
  quantity : Int
deriving DecidableEq, Repr

/-- Row of the `purchase_orders` table with its owned detail lines. -/
structure PurchaseOrder where
  po_id : Nat
  customer_id : Nat
  po_status : PoStatus
  outstanding_balance : Money
  purchase_order_details : List PurchaseOrderDetail
deriving DecidableEq, Repr

/-- Row of the `supply_details` table. -/
structure SupplyDetail where
  product_id : Nat
  unit_quantity : Int
  unit_cost : Money
deriving DecidableEq, Repr

/-- Row of the `supply` table with its owned detail lines. -/
structure Supply where
  supply_id : Nat
  supplier_id : Option Nat
  total : Money
  supply_details : List SupplyDetail
deriving DecidableEq, Repr

/-- Row of the `agrivet_transactions` table (fields relevant to the core). -/
structure Txn where
  transaction_type : String
  amount : Money
deriving DecidableEq, Repr

/-- The whole persistent state the core reads and mutates.  The `next_*`
counters model the auto-increment primary keys of rows the routes create. -/
structure State where
  products : List Product
  inventory : List Inventory
  customers : List Customer
  suppliers : List Supplier
  sales : List Sale
  stock_log : List StockLog
  account_ledger : List LedgerEntry
  purchase_orders : List PurchaseOrder
  supplies : List Supply
  transactions : List Txn
  next_inventory_id : Nat
  next_sale_id : Nat
  next_po_id : Nat
  next_supply_id : Nat
deriving DecidableEq, Repr

/-- Domain errors thrown inside the route transactions (each constructor
mirrors one `throw new Error(...)` site or a 400 validation return). -/
inductive Err where
  | validation (msg : String)
  | productNotFound (pid : Nat)
  | insufficientStock (pid : Nat) (available requested : Int)
  | customerNotFound
  | supplierNotFound
  | saleNotFound
  | alreadyVoided
  | supplyNotFound
  | inventoryNotFound
  | negativeStock
  | noInventoryRecord
deriving DecidableEq, Repr

deriving instance DecidableEq for Except

/-! ### Batch ordering (Prisma `orderBy: { expiration_date: 'asc' }`)

The database schema is not part of the sources; per the specification,
batches with no expiration date sort last ("never expiring", consumed
last).  This null-ordering is modelled from the spec; the comparison of
present dates is the ordinary ascending order of the query. -/

/-- Ordering on optional expiration dates: present dates ascending,
`none` (no expiration) last. -/
def expLe : Option Int → Option Int → Prop
  | none, none => True
  | none, some _ => False
  | some _, none => True
  | some x, some y => x ≤ y

instance : DecidableRel expLe := fun a b =>
  match a, b with
  | none, none => isTrue trivial
  | none, some _ => isFalse fun h => h
  | some _, none => isTrue trivial
  | some x, some y => inferInstanceAs (Decidable (x ≤ y))

/-- Ordering on inventory batches by expiration date. -/
def invLe (a b : Inventory) : Prop :=
  expLe a.expiration_date b.expiration_date

instance : DecidableRel invLe := fun a b =>
  inferInstanceAs (Decidable (expLe a.expiration_date b.expiration_date))

instance : IsTotal Inventory invLe where
  total a b := by
    cases ha : a.expiration_date <;> cases hb : b.expiration_date <;>
      simp [invLe, expLe, ha, hb]
    exact le_total _ _

instance : IsTrans Inventory invLe where
  trans a b c := by
    cases ha : a.expiration_date <;> cases hb : b.expiration_date <;>
      cases hc : c.expiration_date <;>
      simp [invLe, expLe, ha, hb, hc]
    exact le_trans

/-- The batch query used by `createSale` and `convertBulk`:
`where: { is_active: true, current_stock: { gt: 0 } }, orderBy:
{ expiration_date: 'asc' }` for one product. -/
def saleBatches (s : State) (pid : Nat) : List Inventory :=
  List.insertionSort invLe
    (s.inventory.filter fun i =>
      i.product_id == pid && i.is_active && decide (0 < i.current_stock))

/-- Sum of `current_stock` over a list of batches. -/
def sumStocks (l : List Inventory) : Int :=
  (l.map (·.current_stock)).sum

/-- Spec operation `totalOnHand`: sum of stock across a product's active
batches. -/
def totalOnHand (s : State) (pid : Nat) : Int :=
  sumStocks (s.inventory.filter fun i => i.product_id == pid && i.is_active)

/-! ### FIFO allocation (the deduction loop of `createSale`/`convertBulk`) -/

/-- The per-batch deduction plan computed by the JS loop
`for (const inv of product.inventory) { if (remainingQty <= 0) break;
const deductQty = Math.min(remainingQty, inv.current_stock); ... }`.
Each entry pairs the fetched batch row with the quantity deducted from it. -/
def fifoPlan : List Inventory → Int → List (Inventory × Int)
  | [], _ => []
  | inv :: rest, rem =>
    if rem ≤ 0 then []
    else (inv, min rem inv.current_stock) ::
      fifoPlan rest (rem - min rem inv.current_stock)

/-- One `tx.inventory.update({ where: { inventory_id }, data:
{ current_stock: v } })` with an absolute value. -/
def setStock (s : State) (invId : Nat) (v : Int) : State :=
  { s with inventory := s.inventory.map fun i =>
      if i.inventory_id == invId then { i with current_stock := v } else i }

/-- One `tx.inventory.update({ ..., data: { current_stock:
{ increment: q } } })`. -/
def incStock (s : State) (invId : Nat) (q : Int) : State :=
  { s with inventory := s.inventory.map fun i =>
      if i.inventory_id == invId then
        { i with current_stock := i.current_stock + q } else i }

/-- Execute a deduction plan: the JS loop issues one absolute update per
fetched batch, writing `inv.current_stock - deductQty` from the snapshot. -/
def applyPlan (s : State) (plan : List (Inventory × Int)) : State :=
  plan.foldl (fun st p => setStock st p.1.inventory_id (p.1.current_stock - p.2)) s

/-- `tx.products.findUnique({ where: { product_id } })`. -/
def findProduct (s : State) (pid : Nat) : Option Product :=
  s.products.find? fun p => p.product_id == pid

/-- `tx.inventory.findFirst({ where: { product_id, is_active: true } })`. -/
def firstActiveInv (s : State) (pid : Nat) : Option Inventory :=
  s.inventory.find? fun i => i.product_id == pid && i.is_active

/-- `tx.sales.findUnique({ where: { sale_id } })`. -/
def findSale (s : State) (sid : Nat) : Option Sale :=
  s.sales.find? fun sa => sa.sale_id == sid

/-- Whether a customer row with this id exists (a Prisma `update` on a
missing row throws, rolling the transaction back). -/
def customerExists (s : State) (cid : Nat) : Bool :=
  s.customers.any fun c => c.customer_id == cid

/-- Whether a supplier row with this id exists. -/
def supplierExists (s : State) (sid : Nat) : Bool :=
  s.suppliers.any fun u => u.supplier_id == sid

/-- `data: { credit_balance: { increment: amt } }` on one customer. -/
def incCustomerBalance (s : State) (cid : Nat) (amt : Money) : State :=
  { s with customers := s.customers.map fun c =>
      if c.customer_id == cid then
        { c with credit_balance := c.credit_balance + amt } else c }

/-- `data: { credit_balance: { decrement: amt } }` on one customer. -/
def decCustomerBalance (s : State) (cid : Nat) (amt : Money) : State :=
  { s with customers := s.customers.map fun c =>
      if c.customer_id == cid then
        { c with credit_balance := c.credit_balance - amt } else c }

/-- `data: { credit_balance: newBalance }` on one customer. -/
def setCustomerBalance (s : State) (cid : Nat) (v : Money) : State :=
  { s with customers := s.customers.map fun c =>
      if c.customer_id == cid then { c with credit_balance := v } else c }

/-- `data: { payable_balance: { increment: amt } }` on one supplier. -/
def incSupplierBalance (s : State) (sid : Nat) (amt : Money) : State :=
  { s with suppliers := s.suppliers.map fun u =>
      if u.supplier_id == sid then
        { u with payable_balance := u.payable_balance + amt } else u }

/-- `data: { payable_balance: { decrement: amt } }` on one supplier. -/
def decSupplierBalance (s : State) (sid : Nat) (amt : Money) : State :=
  { s with suppliers := s.suppliers.map fun u =>
      if u.supplier_id == sid then
        { u with payable_balance := u.payable_balance - amt } else u }

/-- `data: { payable_balance: v }` on one supplier. -/
def setSupplierBalance (s : State) (sid : Nat) (v : Money) : State :=
  { s with suppliers := s.suppliers.map fun u =>
      if u.supplier_id == sid then { u with payable_balance := v } else u }

/-! ### `createSale` (`POST /api/sales`, `src/pages/api/sales/today.js`) -/

/-- One element of the request's `items` array.  `unitPrice` is optional:
the code computes `item.unitPrice || parseDecimal(product.unit_price)`,
so an absent or zero `unitPrice` falls back to the catalog price. -/
structure SaleItem where
  productId : Nat
  quantity : Int
  unitPrice : Option Money
deriving DecidableEq, Repr

/-- `const unitPrice = item.unitPrice || parseDecimal(product.unit_price)`. -/
def effectivePrice (it : SaleItem) (p : Product) : Money :=
  match it.unitPrice with
  | none => p.unit_price
  | some x => if x = 0 then p.unit_price else x

/-- The `createSale` request body (fields the transaction reads; `tax`,
`paymentMethod` and `notes` never influence the persisted amounts). -/
structure SaleReq where
  customerId : Option Nat
  items : List SaleItem
  discount : Money
  amountPaid : Option Money
deriving DecidableEq, Repr

/-- The per-item loop of `createSale`: look the product up, compare the
requested quantity against the summed fetched stock, accumulate the
subtotal and detail rows, and deduct FIFO from the fetched batches. -/
def processItems (s : State) : List SaleItem →
    Except Err (State × Money × List SaleDetail)
  | [] => .ok (s, 0, [])
  | it :: rest =>
    match findProduct s it.productId with
    | none => .error (.productNotFound it.productId)
    | some p =>
      let fetched := saleBatches s it.productId
      let totalStock := sumStocks fetched
      if totalStock < it.quantity then
        .error (.insufficientStock it.productId totalStock it.quantity)
      else
        let price := effectivePrice it p
        let s1 := applyPlan s (fifoPlan fetched it.quantity)
        match processItems s1 rest with
        | .error e => .error e
        | .ok (s2, sub, ds) =>
          .ok (s2, (it.quantity : Money) * price + sub,
               ⟨it.productId, it.quantity, price⟩ :: ds)

/-- `const paidAmount = amountPaid || totalAmount` (JS falsy: both absent
and zero fall back to the full total). -/
def paidAmountOf (amountPaid : Option Money) (totalAmount : Money) : Money :=
  match amountPaid with
  | none => totalAmount
  | some a => if a = 0 then totalAmount else a

/-- The status assignment of `createSale`: PAID unless
`paidAmount < totalAmount`, in which case PARTIAL for positive payments
and UNPAID otherwise. -/
def saleStatusOf (paidAmount totalAmount : Money) : SaleStatus :=
  if paidAmount < totalAmount then
    if 0 < paidAmount then SaleStatus.PARTIAL else SaleStatus.UNPAID
  else SaleStatus.PAID

/-- The part of the `createSale` transaction after the item loop: persist
the sale with its details, log the stock movements, post the customer
credit (balance increment + ledger debit) for non-PAID customer sales, and
append the `agrivet_transactions` record. -/
def finishSale (s1 : State) (r : SaleReq) (subtotal : Money)
    (details : List SaleDetail) : Except Err (State × Sale) := do
  let totalAmount := subtotal
  let paidAmount := paidAmountOf r.amountPaid totalAmount
  let saleStatus := saleStatusOf paidAmount totalAmount
  let sale : Sale :=
    { sale_id := s1.next_sale_id, customer_id := r.customerId,
      total_amount := totalAmount, amount_paid := paidAmount,
      sale_status := saleStatus, is_active := true, sale_details := details }
  let s2 := { s1 with sales := s1.sales ++ [sale],
                      next_sale_id := s1.next_sale_id + 1 }
  let s3 := { s2 with stock_log := s2.stock_log ++ details.map fun d =>
      { product_id := d.product_id, change_type := ChangeType.SALE,
        quantity := -d.quantity } }
  let s4 : State ← match r.customerId with
    | some cid =>
      if saleStatus ≠ SaleStatus.PAID then
        if customerExists s3 cid then
          let creditAmount := totalAmount - paidAmount
          let sA := incCustomerBalance s3 cid creditAmount
          pure { sA with account_ledger := sA.account_ledger ++
            [{ account_type := AccountType.customer, account_id := cid,
               reference_type := RefType.SALE,
               reference_id := some sale.sale_id,
               debit := creditAmount, credit := 0 }] }
        else throw Err.customerNotFound
      else pure s3
    | none => pure s3
  let s5 := { s4 with transactions := s4.transactions ++
      [{ transaction_type := "SALE", amount := totalAmount }] }
  pure (s5, sale)

/-- The body of the `prisma.$transaction` in `createSale`: the item loop
followed by the persistence steps. -/
def createSaleTx (s : State) (r : SaleReq) : Except Err (State × Sale) := do
  let (s1, subtotal, details) ← processItems s r.items
  finishSale s1 r subtotal details

/-- `createSale`: validate that `items` is nonempty, then run the
transaction; a thrown error rolls everything back (state unchanged). -/
def createSale (s : State) (r : SaleReq) : State × Except Err Sale :=
  if r.items.isEmpty then (s, .error (.validation "At least one item is required"))
  else match createSaleTx s r with
    | .ok (s1, sale) => (s1, .ok sale)
    | .error e => (s, .error e)

/-! ### `voidSale` (`DELETE /api/sales/[id]`, `src/pages/api/sales/[id].js`) -/

/-- Restore one sale detail line: increment the first active batch of the
product, or create a fresh batch, then log a RETURN movement. -/
def restoreDetail (s : State) (d : SaleDetail) : State :=
  let s1 := match firstActiveInv s d.product_id with
    | some inv => incStock s inv.inventory_id d.quantity
    | none =>
      let newRow : Inventory :=
        { inventory_id := s.next_inventory_id, product_id := d.product_id,
          current_stock := d.quantity, is_active := true,
          expiration_date := none }
      { s with
        inventory := s.inventory ++ [newRow],
        next_inventory_id := s.next_inventory_id + 1 }
  { s1 with stock_log := s1.stock_log ++
      [{ product_id := d.product_id, change_type := ChangeType.RETURN,
         quantity := d.quantity }] }

/-- `data: { is_active: false }` on one sale. -/
def markSaleInactive (s : State) (sid : Nat) : State :=
  { s with sales := s.sales.map fun sa =>
      if sa.sale_id == sid then { sa with is_active := false } else sa }

/-- The customer-credit reversal step of `voidSale`: for a customer sale
that was not PAID, decrement the credit balance and append an
equal-and-opposite ledger credit. -/
def voidCredit (s1 : State) (sale : Sale) : Except Err State :=
  match sale.customer_id with
  | some cid =>
    if sale.sale_status ≠ SaleStatus.PAID then
      if customerExists s1 cid then
        let creditAmount := sale.total_amount - sale.amount_paid
        let sA := decCustomerBalance s1 cid creditAmount
        pure { sA with account_ledger := sA.account_ledger ++
          [{ account_type := AccountType.customer, account_id := cid,
             reference_type := RefType.VOID_SALE,
             reference_id := some sale.sale_id,
             debit := 0, credit := creditAmount }] }
      else throw Err.customerNotFound
    else pure s1
  | none => pure s1

/-- The body of the `prisma.$transaction` in `voidSale`. -/
def voidSaleTx (s : State) (sid : Nat) : Except Err (State × Sale) := do
  match findSale s sid with
  | none => throw Err.saleNotFound
  | some sale =>
    if sale.is_active = false then throw Err.alreadyVoided
    else
      let s1 := sale.sale_details.foldl restoreDetail s
      let s2 : State ← voidCredit s1 sale
      pure (markSaleInactive s2 sid, sale)

/-- `voidSale` with transaction rollback on error. -/
def voidSale (s : State) (sid : Nat) : State × Except Err Sale :=
  match voidSaleTx s sid with
  | .ok (s1, sale) => (s1, .ok sale)
  | .error e => (s, .error e)

/-! ### Payments (`POST /api/customers/[id]/payment`,
`POST /api/suppliers/[id]/payment`) -/

/-- Customer payment: the amount is clamped to the outstanding balance
(`Math.min`), the balance is set to the difference, and a ledger credit
for the clamped amount is appended. -/
def recordCustomerPayment (s : State) (cid : Nat) (amount : Money) :
    State × Except Err Money :=
  if amount ≤ 0 then (s, .error (.validation "Valid payment amount is required"))
  else match s.customers.find? (fun c => c.customer_id == cid) with
    | none => (s, .error .customerNotFound)
    | some c =>
      let currentBalance := c.credit_balance
      let paymentAmount := min amount currentBalance
      let newBalance := currentBalance - paymentAmount
      let s1 := setCustomerBalance s cid newBalance
      let entry : LedgerEntry :=
        { account_type := AccountType.customer, account_id := cid,
          reference_type := RefType.PAYMENT, reference_id := none,
          debit := 0, credit := paymentAmount }
      let s2 := { s1 with account_ledger := s1.account_ledger ++ [entry] }
      let s3 := { s2 with transactions := s2.transactions ++
          [{ transaction_type := "PAYMENT", amount := paymentAmount }] }
      (s3, .ok newBalance)

/-- Supplier payment: same clamping policy on the payable balance. -/
def recordSupplierPayment (s : State) (sid : Nat) (amount : Money) :
    State × Except Err Money :=
  if amount ≤ 0 then (s, .error (.validation "Valid payment amount is required"))
  else match s.suppliers.find? (fun u => u.supplier_id == sid) with
    | none => (s, .error .supplierNotFound)
    | some u =>
      let currentBalance := u.payable_balance
      let paymentAmount := min amount currentBalance
      let newBalance := currentBalance - paymentAmount
      let s1 := setSupplierBalance s sid newBalance
      let s2 := { s1 with account_ledger := s1.account_ledger ++
          [{ account_type := AccountType.supplier, account_id := sid,
             reference_type := RefType.PAYMENT, reference_id := none,
             debit := 0, credit := paymentAmount }] }
      (s2, .ok newBalance)

/-! ### `createSupply` (`POST /api/supply`) and `deleteSupply`
(`DELETE /api/supply/[id]`) -/

/-- One element of the supply request's `items` array. -/
structure SupplyItemReq where
  productId : Nat
  quantity : Int
  unitCost : Money
deriving DecidableEq, Repr

/-- Per-item work of `createSupply`: add stock to the first active batch
of the product (creating one if none exists, `is_active: true`), then log
an `IN` movement. -/
def receiveSupplyItem (s : State) (it : SupplyItemReq) : State :=
  let s1 := match firstActiveInv s it.productId with
    | some inv => setStock s inv.inventory_id (inv.current_stock + it.quantity)
    | none =>
      let newRow : Inventory :=
        { inventory_id := s.next_inventory_id, product_id := it.productId,
          current_stock := it.quantity, is_active := true,
          expiration_date := none }
      { s with
        inventory := s.inventory ++ [newRow],
        next_inventory_id := s.next_inventory_id + 1 }
  { s1 with stock_log := s1.stock_log ++
      [{ product_id := it.productId, change_type := ChangeType.IN,
         quantity := it.quantity }] }

/-- `createSupply`: total cost, supply header + details, stock per item,
then `payable_balance: { increment: total }` — with NO account-ledger
entry.  A missing supplier makes the `suppliers.update` throw. -/
def createSupply (s : State) (supplierId : Nat) (items : List SupplyItemReq) :
    State × Except Err Supply :=
  if supplierId = 0 ∨ items.isEmpty then
    (s, .error (.validation "Supplier and at least one item are required"))
  else
    let total := (items.map fun it => it.unitCost * (it.quantity : Money)).sum
    let sup : Supply :=
      { supply_id := s.next_supply_id, supplier_id := some supplierId,
        total := total,
        supply_details := items.map fun it =>
          { product_id := it.productId, unit_quantity := it.quantity,
            unit_cost := it.unitCost } }
    let s1 := { s with supplies := s.supplies ++ [sup],
                       next_supply_id := s.next_supply_id + 1 }
    let s2 := items.foldl receiveSupplyItem s1
    if supplierExists s2 supplierId then
      (incSupplierBalance s2 supplierId total, .ok sup)
    else (s, .error .supplierNotFound)

/-- Per-detail work of `deleteSupply`: clamp-deduct the received quantity
from the first active batch (`Math.max(0, current - unit_quantity)`, no
update at all when no active batch exists), then log an `OUT` movement. -/
def removeSupplyDetail (s : State) (d : SupplyDetail) : State :=
  let s1 := match firstActiveInv s d.product_id with
    | some inv => setStock s inv.inventory_id (max 0 (inv.current_stock - d.unit_quantity))
    | none => s
  { s1 with stock_log := s1.stock_log ++
      [{ product_id := d.product_id, change_type := ChangeType.OUT,
         quantity := d.unit_quantity }] }

/-- `deleteSupply`: reverse the inventory changes (clamped at zero),
decrement the supplier payable by the supply total (again with no ledger
entry), and physically delete the supply and its details. -/
def deleteSupply (s : State) (sid : Nat) : State × Except Err Unit :=
  match s.supplies.find? (fun x => x.supply_id == sid) with
  | none => (s, .error .supplyNotFound)
  | some sup =>
    let s1 := sup.supply_details.foldl removeSupplyDetail s
    match sup.supplier_id with
    | some supid =>
      if supplierExists s1 supid then
        let s2 := decSupplierBalance s1 supid sup.total
        ({ s2 with supplies := s2.supplies.filter fun x => x.supply_id != sid },
         .ok ())
      else (s, .error .supplierNotFound)
    | none =>
      ({ s1 with supplies := s1.supplies.filter fun x => x.supply_id != sid },
       .ok ())

/-! ### `createPurchaseOrder` (`POST /api/purchase-orders`) -/

/-- One element of the purchase-order request's `items` array. -/
structure PoItemReq where
  productId : Nat
  quantity : Int
deriving DecidableEq, Repr

/-- `createPurchaseOrder`: after validating the items' products, create
the PENDING order and append a customer ledger debit for
`outstandingBalance` — WITHOUT updating the customer's cached
`credit_balance`. -/
def createPurchaseOrder (s : State) (customerId : Nat) (items : List PoItemReq)
    (outstandingBalance : Money) : State × Except Err PurchaseOrder :=
  if customerId = 0 ∨ items.isEmpty then
    (s, .error (.validation "Customer ID and items are required"))
  else match items.find? (fun it => (findProduct s it.productId).isNone) with
    | some it => (s, .error (.productNotFound it.productId))
    | none =>
      let order : PurchaseOrder :=
        { po_id := s.next_po_id, customer_id := customerId,
          po_status := PoStatus.PENDING,
          outstanding_balance := outstandingBalance,
          purchase_order_details := items.map fun it =>
            { po_detail_id := 0, product_id := it.productId,
              quantity := it.quantity } }
      let s1 := { s with purchase_orders := s.purchase_orders ++ [order],
                         next_po_id := s.next_po_id + 1 }
      let entry : LedgerEntry :=
        { account_type := AccountType.customer, account_id := customerId,
          reference_type := RefType.PURCHASE_ORDER,
          reference_id := some order.po_id,
          debit := outstandingBalance, credit := 0 }
      ({ s1 with account_ledger := s1.account_ledger ++ [entry] }, .ok order)

/-! ### `adjustStock` (`POST /api/inventory/adjust`) -/

/-- The `adjustStock` request body. -/
structure AdjustReq where
  inventoryId : Option Nat
  productId : Option Nat
  adjustmentType : String
  quantity : Int
  reason : String
deriving DecidableEq, Repr

/-- Append one ADJUSTMENT entry to the stock log. -/
def logAdjustment (s : State) (pid : Nat) (q : Int) : State :=
  { s with stock_log := s.stock_log ++
      [{ product_id := pid, change_type := ChangeType.ADJUSTMENT,
         quantity := q }] }

/-- `adjustStock`: `!quantity || !reason` rejects zero quantity and empty
reason before the transaction; the applied delta is
`adjustmentType === 'DECREASE' ? -Math.abs(quantity) : Math.abs(quantity)`. -/
def adjustStock (s : State) (r : AdjustReq) : State × Except Err Int :=
  if r.quantity = 0 ∨ r.reason = "" then
    (s, .error (.validation "Quantity and reason are required"))
  else if r.inventoryId = none ∧ r.productId = none then
    (s, .error (.validation "Either inventoryId or productId is required"))
  else
    let adjustmentQty : Int :=
      if r.adjustmentType = "DECREASE" then -(|r.quantity|) else |r.quantity|
    match r.inventoryId with
    | some invId =>
      match s.inventory.find? (fun i => i.inventory_id == invId) with
      | none => (s, .error .inventoryNotFound)
      | some inv =>
        let newQuantity := inv.current_stock + adjustmentQty
        if newQuantity < 0 then (s, .error .negativeStock)
        else
          let s1 := setStock s invId newQuantity
          (logAdjustment s1 inv.product_id adjustmentQty, .ok adjustmentQty)
    | none =>
      match r.productId with
      | none => (s, .error (.validation "Either inventoryId or productId is required"))
      | some pid =>
        match firstActiveInv s pid with
        | some inv =>
          let newQuantity := inv.current_stock + adjustmentQty
          if newQuantity < 0 then (s, .error .negativeStock)
          else
            let s1 := setStock s inv.inventory_id newQuantity
            (logAdjustment s1 inv.product_id adjustmentQty, .ok adjustmentQty)
        | none =>
          if adjustmentQty < 0 then (s, .error .noInventoryRecord)
          else match findProduct s pid with
            | none => (s, .error (.productNotFound pid))
            | some _ =>
              let newRow : Inventory :=
                { inventory_id := s.next_inventory_id, product_id := pid,
                  current_stock := adjustmentQty, is_active := true,
                  expiration_date := none }
              let s1 := { s with
                inventory := s.inventory ++ [newRow],
                next_inventory_id := s.next_inventory_id + 1 }
              (logAdjustment s1 pid adjustmentQty, .ok adjustmentQty)

/-! ### `convertBulk` (`POST /api/inventory/convert`) -/

/-- The effective conversion factor:
`targetProduct.quantity_per_case || 1` (both `null` and `0` fall back
to 1). -/
def conversionFactor (p : Product) : Int :=
  match p.quantity_per_case with
  | none => 1
  | some k => if k = 0 then 1 else k

/-- `convertBulk`: deduct `sourceQuantity` FIFO from the source product's
batches, add `sourceQuantity * factor` to the first active batch of the
target (creating one if needed), and log two CONVERSION movements.
Returns (quantity deducted, quantity added). -/
def convertBulk (s : State) (sourceProductId targetProductId : Nat)
    (sourceQuantity : Int) : State × Except Err (Int × Int) :=
  if sourceProductId = 0 ∨ targetProductId = 0 ∨ sourceQuantity = 0 then
    (s, .error (.validation "Source product, target product, and quantity are required"))
  else match findProduct s sourceProductId with
    | none => (s, .error (.productNotFound sourceProductId))
    | some _ =>
      match findProduct s targetProductId with
      | none => (s, .error (.productNotFound targetProductId))
      | some targetProduct =>
        let factor := conversionFactor targetProduct
        let fetched := saleBatches s sourceProductId
        let totalSourceStock := sumStocks fetched
        if totalSourceStock < sourceQuantity then
          (s, .error (.insufficientStock sourceProductId totalSourceStock sourceQuantity))
        else
          let targetQuantityToAdd := sourceQuantity * factor
          let s1 := applyPlan s (fifoPlan fetched sourceQuantity)
          let s2 := match firstActiveInv s1 targetProductId with
            | some inv => incStock s1 inv.inventory_id targetQuantityToAdd
            | none =>
              let newRow : Inventory :=
                { inventory_id := s1.next_inventory_id,
                  product_id := targetProductId,
                  current_stock := targetQuantityToAdd, is_active := true,
                  expiration_date := none }
              { s1 with
                inventory := s1.inventory ++ [newRow],
                next_inventory_id := s1.next_inventory_id + 1 }
          let s3 := { s2 with stock_log := s2.stock_log ++
              [{ product_id := sourceProductId,
                 change_type := ChangeType.CONVERSION,
                 quantity := -sourceQuantity },
               { product_id := targetProductId,
                 change_type := ChangeType.CONVERSION,
                 quantity := targetQuantityToAdd }] }
          (s3, .ok (sourceQuantity, targetQuantityToAdd))

/-! ### Ledger reconciliation -/

/-- Signed sum `Σ(debit) − Σ(credit)` of one account's ledger entries. -/
def ledgerSum (s : State) (t : AccountType) (aid : Nat) : Money :=
  ((s.account_ledger.filter fun e => e.account_type == t && e.account_id == aid).map
    fun e => e.debit - e.credit).sum

/-- Reconciliation invariant: every cached balance equals the signed sum
of that account's ledger entries. -/
def reconciled (s : State) : Prop :=
  (∀ c ∈ s.customers,
    c.credit_balance = ledgerSum s AccountType.customer c.customer_id) ∧
  (∀ u ∈ s.suppliers,
    u.payable_balance = ledgerSum s AccountType.supplier u.supplier_id)

instance (s : State) : Decidable (reconciled s) := by
  unfold reconciled; infer_instance

/-- The operations (among those named by the reconciliation claim) that do
preserve the invariant. -/
inductive CoreOp where
  | sale (r : SaleReq)
  | voidS (sid : Nat)
  | custPay (cid : Nat) (amount : Money)
  | supPay (sid : Nat) (amount : Money)
deriving DecidableEq, Repr

/-- Run one operation, keeping only the observable state. -/
def applyOp (s : State) : CoreOp → State
  | .sale r => (createSale s r).1
  | .voidS sid => (voidSale s sid).1
  | .custPay cid a => (recordCustomerPayment s cid a).1
  | .supPay sid a => (recordSupplierPayment s sid a).1

/-- Run a sequence of operations. -/
def applyOps (s : State) (ops : List CoreOp) : State :=
  ops.foldl applyOp s

/-! ## Lemma layer: sums, FIFO plans and single-row updates -/

theorem sumStocks_nil : sumStocks [] = 0 := rfl

theorem sumStocks_cons (i : Inventory) (l : List Inventory) :
    sumStocks (i :: l) = i.current_stock + sumStocks l := by
  simp [sumStocks]

theorem sumStocks_append (a b : List Inventory) :
    sumStocks (a ++ b) = sumStocks a + sumStocks b := by
  simp [sumStocks]

theorem sumStocks_perm {a b : List Inventory} (h : a.Perm b) :
    sumStocks a = sumStocks b := by
  unfold sumStocks
  exact (h.map fun i => i.current_stock).sum_eq

theorem sumStocks_nonneg {l : List Inventory}
    (h : ∀ i ∈ l, 0 ≤ i.current_stock) : 0 ≤ sumStocks l := by
  induction l with
  | nil => simp [sumStocks]
  | cons i t ih =>
    rw [sumStocks_cons]
    have h1 := h i (by simp)
    have h2 := ih fun j hj => h j (by simp [hj])
    omega

/-- Membership and the filter facts for the `createSale`/`convertBulk`
batch query. -/
theorem mem_saleBatches {s : State} {pid : Nat} {i : Inventory}
    (h : i ∈ saleBatches s pid) :
    i ∈ s.inventory ∧ i.product_id = pid ∧ i.is_active = true ∧
      0 < i.current_stock := by
  have hperm := List.perm_insertionSort invLe
    (s.inventory.filter fun j =>
      j.product_id == pid && j.is_active && decide (0 < j.current_stock))
  have hmem := hperm.mem_iff.mp h
  have hsub := List.mem_of_mem_filter hmem
  have hpred := List.of_mem_filter hmem
  simp only [Bool.and_eq_true, beq_iff_eq, decide_eq_true_eq] at hpred
  exact ⟨hsub, hpred.1.1, hpred.1.2, hpred.2⟩

theorem saleBatches_perm (s : State) (pid : Nat) :
    (saleBatches s pid).Perm
      (s.inventory.filter fun j =>
        j.product_id == pid && j.is_active && decide (0 < j.current_stock)) :=
  List.perm_insertionSort invLe _

theorem nodup_ids_saleBatches {s : State} (pid : Nat)
    (h : (s.inventory.map fun i => i.inventory_id).Nodup) :
    ((saleBatches s pid).map fun i => i.inventory_id).Nodup := by
  have hperm := (saleBatches_perm s pid).map fun i => i.inventory_id
  refine hperm.nodup_iff.mpr ?_
  exact List.Nodup.sublist
    ((List.filter_sublist _).map fun i : Inventory => i.inventory_id) h

/-- List form: with non-negative stocks, adding the `current_stock > 0`
conjunct to the filter does not change the sum. -/
theorem sumStocks_filter_pos (pid : Nat) : ∀ l : List Inventory,
    (∀ i ∈ l, 0 ≤ i.current_stock) →
    sumStocks (l.filter fun j =>
        j.product_id == pid && j.is_active && decide (0 < j.current_stock)) =
      sumStocks (l.filter fun j => j.product_id == pid && j.is_active)
  | [], _ => by simp
  | i :: t, h => by
    have hi := h i (by simp)
    have ht := sumStocks_filter_pos pid t fun j hj => h j (by simp [hj])
    by_cases hpe : i.product_id = pid
    · by_cases ha : i.is_active = true
      · rcases lt_or_eq_of_le hi with hpos | hzero
        · simp [List.filter_cons, hpe, ha, hpos, sumStocks_cons, ht]
        · simp [List.filter_cons, hpe, ha, ← hzero, sumStocks_cons, ht]
      · simp [List.filter_cons, hpe, ha, ht]
    · simp [List.filter_cons, hpe, ht]

/-- With non-negative stocks, the query's `current_stock > 0` filter does
not change the per-product total: the fetched total equals `totalOnHand`. -/
theorem sumStocks_saleBatches {s : State} (pid : Nat)
    (h : ∀ i ∈ s.inventory, 0 ≤ i.current_stock) :
    sumStocks (saleBatches s pid) = totalOnHand s pid := by
  rw [sumStocks_perm (saleBatches_perm s pid)]
  exact sumStocks_filter_pos pid s.inventory h

/-! ### Facts about the FIFO deduction plan -/

/-- The rows of a plan form a sublist (in fact a front segment) of the
fetched list. -/
theorem fifoPlan_fst_sublist : ∀ (l : List Inventory) (rem : Int),
    ((fifoPlan l rem).map Prod.fst).Sublist l
  | [], _ => by simp [fifoPlan]
  | inv :: rest, rem => by
    unfold fifoPlan
    by_cases hr : rem ≤ 0
    · simp [hr]
    · simpa [hr] using
        List.Sublist.cons₂ inv (fifoPlan_fst_sublist rest _)

/-- Each plan entry deducts a quantity between 0 and that row's fetched
stock, and its row belongs to the fetched list. -/
theorem fifoPlan_mem : ∀ (l : List Inventory) (rem : Int),
    (∀ i ∈ l, 0 ≤ i.current_stock) →
    ∀ q ∈ fifoPlan l rem,
      q.1 ∈ l ∧ 0 ≤ q.2 ∧ q.2 ≤ q.1.current_stock
  | [], _, _, q, hq => by simp [fifoPlan] at hq
  | inv :: rest, rem, h, q, hq => by
    unfold fifoPlan at hq
    by_cases hr : rem ≤ 0
    · simp [hr] at hq
    · simp only [hr, if_false] at hq
      rcases List.mem_cons.mp hq with hq | hq
      · subst hq
        refine ⟨by simp, ?_, min_le_right _ _⟩
        have h0 := h inv (by simp)
        have : 0 < rem := lt_of_not_le hr
        exact le_min (le_of_lt this) h0
      · have := fifoPlan_mem rest _ (fun j hj => h j (by simp [hj])) q hq
        exact ⟨by simp [this.1], this.2.1, this.2.2⟩

/-- When the request fits in the available stock, the plan deducts exactly
the requested quantity in total. -/
theorem fifoPlan_deduction : ∀ (l : List Inventory) (rem : Int),
    (∀ i ∈ l, 0 ≤ i.current_stock) → 0 ≤ rem → rem ≤ sumStocks l →
    ((fifoPlan l rem).map Prod.snd).sum = rem
  | [], rem, _, h0, hle => by
    simp [fifoPlan]
    simp [sumStocks] at hle
    omega
  | inv :: rest, rem, h, h0, hle => by
    unfold fifoPlan
    by_cases hr : rem ≤ 0
    · simp [hr]; omega
    · have hpos : 0 < rem := lt_of_not_le hr
      have hinv := h inv (by simp)
      have hrest : ∀ i ∈ rest, 0 ≤ i.current_stock :=
        fun j hj => h j (by simp [hj])
      have hsum := sumStocks_nonneg hrest
      rw [sumStocks_cons] at hle
      have hrec := fifoPlan_deduction rest (rem - min rem inv.current_stock)
        hrest (by omega) (by omega)
      simp only [hr, if_false, List.map_cons, List.sum_cons, hrec]
      omega

/-! ### Effects of single-row updates on per-product totals -/

/-- Updating a row keeps every field but `current_stock`, so row ids (and
therefore id-nodup-ness) are untouched by `setStock`. -/
theorem setStock_ids (s : State) (iid : Nat) (v : Int) :
    ((setStock s iid v).inventory.map fun i => i.inventory_id) =
      s.inventory.map fun i => i.inventory_id := by
  unfold setStock
  simp only [List.map_map]
  refine List.map_congr_left fun i _ => ?_
  by_cases h : i.inventory_id == iid <;> simp [h] <;> split <;> rfl

theorem incStock_ids (s : State) (iid : Nat) (q : Int) :
    ((incStock s iid q).inventory.map fun i => i.inventory_id) =
      s.inventory.map fun i => i.inventory_id := by
  unfold incStock
  simp only [List.map_map]
  refine List.map_congr_left fun i _ => ?_
  by_cases h : i.inventory_id == iid <;> simp [h] <;> split <;> rfl

/-- A row whose id differs from the updated one is still present,
unchanged, after `setStock`. -/
theorem mem_setStock_of_ne {s : State} {j : Inventory} (hj : j ∈ s.inventory)
    {iid : Nat} (hne : j.inventory_id ≠ iid) (v : Int) :
    j ∈ (setStock s iid v).inventory := by
  unfold setStock
  have : (if j.inventory_id == iid then
      { j with current_stock := v } else j) = j := by
    simp [hne]
  exact this ▸ List.mem_map_of_mem _ hj

/-- If every plan row keeps a non-negative stock after its deduction, the
whole-state non-negativity of stocks is preserved by `setStock` with a
non-negative value. -/
theorem setStock_nonneg (s : State) (iid : Nat) {v : Int} (hv : 0 ≤ v)
    (h : ∀ i ∈ s.inventory, 0 ≤ i.current_stock) :
    ∀ i ∈ (setStock s iid v).inventory, 0 ≤ i.current_stock := by
  unfold setStock
  intro i hi
  rcases List.mem_map.mp hi with ⟨j, hj, rfl⟩
  by_cases hb : j.inventory_id == iid <;> simp [hb]
  · exact hv
  · exact h j hj

/-- List form of a single row update: with nodup ids, updating the row
`inv` (the unique row with its id) to a new stock value shifts the
filtered sum by the row's contribution change. -/
theorem sumStocks_filter_updateRow (pid : Nat) :
    ∀ (l : List Inventory) (iid : Nat) (f : Inventory → Int) (inv : Inventory),
    (l.map fun i => i.inventory_id).Nodup → inv ∈ l → inv.inventory_id = iid →
    sumStocks ((l.map fun i =>
        if i.inventory_id == iid then { i with current_stock := f i } else i).filter
        fun j => j.product_id == pid && j.is_active) =
      sumStocks (l.filter fun j => j.product_id == pid && j.is_active) +
        (if inv.product_id = pid ∧ inv.is_active = true then
          f inv - inv.current_stock else 0)
  | [], _, _, _, _, hmem, _ => by simp at hmem
  | a :: t, iid, f, inv, hnd, hmem, hid => by
    have hndt : (t.map fun i => i.inventory_id).Nodup :=
      (List.nodup_cons.mp hnd).2
    rcases List.mem_cons.mp hmem with rfl | hmemt
    · have hbeq : (inv.inventory_id == iid) = true := by simp [hid]
      have htail : ∀ j ∈ t, j.inventory_id ≠ iid := by
        intro j hj hje
        exact (List.nodup_cons.mp hnd).1
          (List.mem_map.mpr ⟨j, hj, hje.trans hid.symm⟩)
      have hmapt : (t.map fun i =>
          if i.inventory_id == iid then { i with current_stock := f i } else i) = t := by
        have h1 : (t.map fun i =>
            if i.inventory_id == iid then { i with current_stock := f i } else i) =
            t.map id :=
          List.map_congr_left fun j hj => by simp [htail j hj]
        simpa using h1
      simp only [List.map_cons, hbeq, if_true, hmapt]
      by_cases hp : inv.product_id = pid
      · by_cases ha : inv.is_active = true
        · simp [List.filter_cons, hp, ha, sumStocks_cons]
          ring
        · simp [List.filter_cons, hp, ha]
      · simp [List.filter_cons, hp]
    · have hane : a.inventory_id ≠ iid := by
        intro hae
        exact (List.nodup_cons.mp hnd).1
          (List.mem_map.mpr ⟨inv, hmemt, hid.trans hae.symm⟩)
      have hrec := sumStocks_filter_updateRow pid t iid f inv hndt hmemt hid
      have hahead : (if (a.inventory_id == iid) = true then
          { a with current_stock := f a } else a) = a := by
        simp [hane]
      rw [List.map_cons, hahead]
      by_cases hpa : (a.product_id == pid && a.is_active) = true
      · simp only [List.filter_cons, hpa, if_true, sumStocks_cons, hrec]
        ring
      · simp only [List.filter_cons, hpa, Bool.false_eq_true, if_false, hrec]

/-- Effect of `setStock` on a per-product total. -/
theorem totalOnHand_setStock {s : State} {inv : Inventory} (pid : Nat)
    (v : Int) (hnd : (s.inventory.map fun i => i.inventory_id).Nodup)
    (hmem : inv ∈ s.inventory) :
    totalOnHand (setStock s inv.inventory_id v) pid =
      totalOnHand s pid + (if inv.product_id = pid ∧ inv.is_active = true then
        v - inv.current_stock else 0) := by
  unfold totalOnHand setStock
  exact sumStocks_filter_updateRow pid s.inventory inv.inventory_id
    (fun _ => v) inv hnd hmem rfl

/-- Effect of `incStock` on a per-product total. -/
theorem totalOnHand_incStock {s : State} {inv : Inventory} (pid : Nat)
    (q : Int) (hnd : (s.inventory.map fun i => i.inventory_id).Nodup)
    (hmem : inv ∈ s.inventory) :
    totalOnHand (incStock s inv.inventory_id q) pid =
      totalOnHand s pid + (if inv.product_id = pid ∧ inv.is_active = true then
        q else 0) := by
  unfold totalOnHand incStock
  have := sumStocks_filter_updateRow pid s.inventory inv.inventory_id
    (fun i => i.current_stock + q) inv hnd hmem rfl
  rw [this]
  by_cases hp : inv.product_id = pid ∧ inv.is_active = true
  · simp [hp]
  · simp [hp]

/-- Appending a row extends a per-product total by that row's (filtered)
contribution. -/
theorem totalOnHand_appendRow (s : State) (row : Inventory) (pid : Nat) :
    totalOnHand { s with inventory := s.inventory ++ [row] } pid =
      totalOnHand s pid + (if row.product_id = pid ∧ row.is_active = true then
        row.current_stock else 0) := by
  unfold totalOnHand
  by_cases hp : row.product_id = pid
  · by_cases ha : row.is_active = true
    · simp [List.filter_append, sumStocks_append, hp, ha, sumStocks]
    · simp [List.filter_append, sumStocks_append, hp, ha, sumStocks]
  · simp [List.filter_append, sumStocks_append, hp, sumStocks]

/-! ### Effects of `applyPlan` -/

theorem applyPlan_products : ∀ (plan : List (Inventory × Int)) (s : State),
    (applyPlan s plan).products = s.products
  | [], _ => rfl
  | p :: ps, s => applyPlan_products ps (setStock s p.1.inventory_id _)

theorem applyPlan_customers : ∀ (plan : List (Inventory × Int)) (s : State),
    (applyPlan s plan).customers = s.customers
  | [], _ => rfl
  | p :: ps, s => applyPlan_customers ps (setStock s p.1.inventory_id _)

theorem applyPlan_suppliers : ∀ (plan : List (Inventory × Int)) (s : State),
    (applyPlan s plan).suppliers = s.suppliers
  | [], _ => rfl
  | p :: ps, s => applyPlan_suppliers ps (setStock s p.1.inventory_id _)

theorem applyPlan_ledger : ∀ (plan : List (Inventory × Int)) (s : State),
    (applyPlan s plan).account_ledger = s.account_ledger
  | [], _ => rfl
  | p :: ps, s => applyPlan_ledger ps (setStock s p.1.inventory_id _)

theorem applyPlan_sales : ∀ (plan : List (Inventory × Int)) (s : State),
    (applyPlan s plan).sales = s.sales
  | [], _ => rfl
  | p :: ps, s => applyPlan_sales ps (setStock s p.1.inventory_id _)

theorem applyPlan_ids : ∀ (plan : List (Inventory × Int)) (s : State),
    ((applyPlan s plan).inventory.map fun i => i.inventory_id) =
      s.inventory.map fun i => i.inventory_id
  | [], _ => rfl
  | p :: ps, s => by
    have h1 := applyPlan_ids ps (setStock s p.1.inventory_id (p.1.current_stock - p.2))
    have h2 := setStock_ids s p.1.inventory_id (p.1.current_stock - p.2)
    calc ((applyPlan s (p :: ps)).inventory.map fun i => i.inventory_id)
        = ((applyPlan (setStock s p.1.inventory_id (p.1.current_stock - p.2)) ps).inventory.map
            fun i => i.inventory_id) := rfl
      _ = _ := by rw [h1, h2]

theorem applyPlan_nonneg : ∀ (plan : List (Inventory × Int)) (s : State),
    (∀ q ∈ plan, 0 ≤ q.1.current_stock - q.2) →
    (∀ i ∈ s.inventory, 0 ≤ i.current_stock) →
    ∀ i ∈ (applyPlan s plan).inventory, 0 ≤ i.current_stock
  | [], s, _, hs => hs
  | p :: ps, s, hplan, hs => by
    have hhead := hplan p (by simp)
    have hstep := setStock_nonneg s p.1.inventory_id hhead hs
    exact applyPlan_nonneg ps _ (fun q hq => hplan q (by simp [hq])) hstep

/-- Core accounting of a deduction plan: with nodup ids, plan rows drawn
from the state and pairwise-distinct plan ids, running the plan lowers
each per-product total by the summed deductions planned against batches
of that product. -/
theorem applyPlan_totalOnHand (pid : Nat) :
    ∀ (plan : List (Inventory × Int)) (s : State),
    (s.inventory.map fun i => i.inventory_id).Nodup →
    (∀ q ∈ plan, q.1 ∈ s.inventory) →
    ((plan.map fun q => q.1.inventory_id).Nodup) →
    totalOnHand (applyPlan s plan) pid =
      totalOnHand s pid -
        (((plan.filter fun q => q.1.product_id == pid && q.1.is_active).map
          Prod.snd).sum)
  | [], s, _, _, _ => by simp [applyPlan]
  | p :: ps, s, hnd, hmem, hpnd => by
    have hpmem : p.1 ∈ s.inventory := hmem p (by simp)
    have hstep := totalOnHand_setStock pid (p.1.current_stock - p.2) hnd hpmem
    have hndps : ((ps.map fun q => q.1.inventory_id)).Nodup :=
      (List.nodup_cons.mp hpnd).2
    have hmemps : ∀ q ∈ ps,
        q.1 ∈ (setStock s p.1.inventory_id (p.1.current_stock - p.2)).inventory := by
      intro q hq
      refine mem_setStock_of_ne (hmem q (by simp [hq])) ?_ _
      intro hqe
      exact (List.nodup_cons.mp hpnd).1 (List.mem_map.mpr ⟨q, hq, hqe⟩)
    have hnds : ((setStock s p.1.inventory_id
        (p.1.current_stock - p.2)).inventory.map fun i => i.inventory_id).Nodup := by
      rw [setStock_ids]; exact hnd
    have hrec := applyPlan_totalOnHand pid ps _ hnds hmemps hndps
    have hfold : applyPlan s (p :: ps) =
        applyPlan (setStock s p.1.inventory_id (p.1.current_stock - p.2)) ps := rfl
    rw [hfold, hrec, hstep]
    by_cases hp : p.1.product_id = pid
    · by_cases ha : p.1.is_active = true
      · simp [List.filter_cons, hp, ha]
        ring
      · simp [List.filter_cons, hp, ha]
    · simp [List.filter_cons, hp]

/-! ### The allocation step `applyPlan s (fifoPlan (saleBatches s pid) n)` -/

theorem salePlan_facts {s : State} {pid : Nat} {n : Int} :
    ∀ q ∈ fifoPlan (saleBatches s pid) n,
      q.1 ∈ s.inventory ∧ q.1.product_id = pid ∧ q.1.is_active = true ∧
        0 ≤ q.2 ∧ q.2 ≤ q.1.current_stock := by
  intro q hq
  have hfetch : ∀ i ∈ saleBatches s pid, 0 ≤ i.current_stock :=
    fun i hi => le_of_lt (mem_saleBatches hi).2.2.2
  have h1 := fifoPlan_mem (saleBatches s pid) n hfetch q hq
  have h2 := mem_saleBatches h1.1
  exact ⟨h2.1, h2.2.1, h2.2.2.1, h1.2.1, h1.2.2⟩

theorem salePlan_ids_nodup {s : State} (pid : Nat) (n : Int)
    (hnd : (s.inventory.map fun i => i.inventory_id).Nodup) :
    ((fifoPlan (saleBatches s pid) n).map fun q => q.1.inventory_id).Nodup := by
  have h1 : ((fifoPlan (saleBatches s pid) n).map fun q => q.1.inventory_id) =
      ((fifoPlan (saleBatches s pid) n).map Prod.fst).map fun i => i.inventory_id := by
    simp [List.map_map]
  rw [h1]
  exact List.Nodup.sublist
    ((fifoPlan_fst_sublist _ _).map fun i : Inventory => i.inventory_id)
    (nodup_ids_saleBatches pid hnd)

/-- The allocation step deducts the planned quantities from the allocated
product's total and leaves every other product's total unchanged. -/
theorem allocate_totalOnHand (s : State) (pid : Nat) (n : Int) (tgt : Nat)
    (hnd : (s.inventory.map fun i => i.inventory_id).Nodup) :
    totalOnHand (applyPlan s (fifoPlan (saleBatches s pid) n)) tgt =
      totalOnHand s tgt -
        (if tgt = pid then
          (((fifoPlan (saleBatches s pid) n).map Prod.snd).sum) else 0) := by
  have hmem : ∀ q ∈ fifoPlan (saleBatches s pid) n, q.1 ∈ s.inventory :=
    fun q hq => (salePlan_facts q hq).1
  have hpnd := salePlan_ids_nodup pid n hnd
  rw [applyPlan_totalOnHand tgt _ s hnd hmem hpnd]
  by_cases htp : tgt = pid
  · subst htp
    have : ((fifoPlan (saleBatches s tgt) n).filter
        fun q => q.1.product_id == tgt && q.1.is_active) =
        fifoPlan (saleBatches s tgt) n := by
      refine List.filter_eq_self.mpr fun q hq => ?_
      have h := salePlan_facts q hq
      simp [h.2.1, h.2.2.1]
    rw [this]
    simp
  · have : ((fifoPlan (saleBatches s pid) n).filter
        fun q => q.1.product_id == tgt && q.1.is_active) = [] := by
      refine List.filter_eq_nil_iff.mpr fun q hq => ?_
      have h := salePlan_facts q hq
      simp [h.2.1, htp, Ne.symm htp]
    rw [this]
    simp [htp]

/-- With enough stock on hand, allocation deducts exactly `n`. -/
theorem allocate_deducts (s : State) (pid : Nat) (n : Int)
    (hnn : ∀ i ∈ s.inventory, 0 ≤ i.current_stock)
    (hnd : (s.inventory.map fun i => i.inventory_id).Nodup)
    (h0 : 0 ≤ n) (hle : n ≤ totalOnHand s pid) :
    totalOnHand (applyPlan s (fifoPlan (saleBatches s pid) n)) pid =
      totalOnHand s pid - n := by
  rw [allocate_totalOnHand s pid n pid hnd, if_pos rfl]
  have hfetch : ∀ i ∈ saleBatches s pid, 0 ≤ i.current_stock :=
    fun i hi => le_of_lt (mem_saleBatches hi).2.2.2
  rw [fifoPlan_deduction (saleBatches s pid) n hfetch h0
    (by rw [sumStocks_saleBatches pid hnn]; exact hle)]

/-- Allocation never increases any product's total. -/
theorem allocate_mono (s : State) (pid : Nat) (n : Int) (tgt : Nat)
    (hnd : (s.inventory.map fun i => i.inventory_id).Nodup) :
    totalOnHand (applyPlan s (fifoPlan (saleBatches s pid) n)) tgt ≤
      totalOnHand s tgt := by
  rw [allocate_totalOnHand s pid n tgt hnd]
  have hsum : 0 ≤ ((fifoPlan (saleBatches s pid) n).map Prod.snd).sum := by
    refine List.sum_nonneg fun d hd => ?_
    rcases List.mem_map.mp hd with ⟨q, hq, rfl⟩
    exact (salePlan_facts q hq).2.2.2.1
  by_cases htp : tgt = pid
  · simp only [htp, if_true]
    omega
  · simp [htp]

/-- Allocation preserves non-negativity of all stocks. -/
theorem allocate_nonneg (s : State) (pid : Nat) (n : Int)
    (hnn : ∀ i ∈ s.inventory, 0 ≤ i.current_stock) :
    ∀ i ∈ (applyPlan s (fifoPlan (saleBatches s pid) n)).inventory,
      0 ≤ i.current_stock := by
  refine applyPlan_nonneg _ s (fun q hq => ?_) hnn
  have h := salePlan_facts q hq
  omega

theorem findProduct_applyPlan (s : State) (plan : List (Inventory × Int))
    (pid : Nat) :
    findProduct (applyPlan s plan) pid = findProduct s pid := by
  unfold findProduct
  rw [applyPlan_products]

/-! ### Reduction equations for `processItems` -/

theorem processItems_nil (s : State) : processItems s [] = .ok (s, 0, []) := rfl

theorem processItems_cons_none (s : State) (it : SaleItem) (rest : List SaleItem)
    (h : findProduct s it.productId = none) :
    processItems s (it :: rest) = .error (.productNotFound it.productId) := by
  simp [processItems, h]

theorem processItems_cons_insufficient (s : State) (it : SaleItem)
    (rest : List SaleItem) (p : Product)
    (hp : findProduct s it.productId = some p)
    (h : sumStocks (saleBatches s it.productId) < it.quantity) :
    processItems s (it :: rest) =
      .error (.insufficientStock it.productId
        (sumStocks (saleBatches s it.productId)) it.quantity) := by
  simp [processItems, hp, h]

theorem processItems_cons_ok (s : State) (it : SaleItem)
    (rest : List SaleItem) (p : Product)
    (hp : findProduct s it.productId = some p)
    (h : ¬ sumStocks (saleBatches s it.productId) < it.quantity) :
    processItems s (it :: rest) =
      match processItems
          (applyPlan s (fifoPlan (saleBatches s it.productId) it.quantity)) rest with
      | .error e => .error e
      | .ok (s2, sub, ds) =>
        .ok (s2, (it.quantity : Money) * effectivePrice it p + sub,
             ⟨it.productId, it.quantity, effectivePrice it p⟩ :: ds) := by
  simp [processItems, hp, h]

/-- If some item's requested quantity exceeds the current total on hand
(all referenced products existing), the item loop fails with an
insufficient-stock error. -/
theorem processItems_insufficient : ∀ (items : List SaleItem) (s : State),
    (∀ i ∈ s.inventory, 0 ≤ i.current_stock) →
    ((s.inventory.map fun i => i.inventory_id).Nodup) →
    (∀ it ∈ items, (findProduct s it.productId).isSome) →
    (∃ it ∈ items, totalOnHand s it.productId < it.quantity) →
    ∃ pid a q, processItems s items = .error (.insufficientStock pid a q)
  | [], _, _, _, _, hbad => by simp at hbad
  | it :: rest, s, hnn, hnd, hprod, hbad => by
    obtain ⟨p, hp⟩ := Option.isSome_iff_exists.mp (hprod it (by simp))
    by_cases hlt : sumStocks (saleBatches s it.productId) < it.quantity
    · exact ⟨it.productId, sumStocks (saleBatches s it.productId), it.quantity,
        processItems_cons_insufficient s it rest p hp hlt⟩
    · have htot : totalOnHand s it.productId =
          sumStocks (saleBatches s it.productId) :=
        (sumStocks_saleBatches _ hnn).symm
      obtain ⟨bad, hbmem, hblt⟩ := hbad
      have hbrest : bad ∈ rest := by
        rcases List.mem_cons.mp hbmem with rfl | hmem
        · exfalso
          rw [htot] at hblt
          omega
        · exact hmem
      set s1 := applyPlan s (fifoPlan (saleBatches s it.productId) it.quantity)
        with hs1
      have hnn1 := allocate_nonneg s it.productId it.quantity hnn
      have hnd1 : ((s1.inventory.map fun i => i.inventory_id)).Nodup := by
        rw [hs1, applyPlan_ids]
        exact hnd
      have hprod1 : ∀ j ∈ rest, (findProduct s1 j.productId).isSome := by
        intro j hj
        rw [hs1, findProduct_applyPlan]
        exact hprod j (by simp [hj])
      have hbad1 : ∃ j ∈ rest, totalOnHand s1 j.productId < j.quantity :=
        ⟨bad, hbrest, lt_of_le_of_lt
          (allocate_mono s it.productId it.quantity bad.productId hnd) hblt⟩
      obtain ⟨pid, a, q, hres⟩ :=
        processItems_insufficient rest s1 hnn1 hnd1 hprod1 hbad1
      refine ⟨pid, a, q, ?_⟩
      rw [processItems_cons_ok s it rest p hp hlt, ← hs1, hres]

/-- A failing item loop fails the whole transaction. -/
theorem createSaleTx_error {s : State} {r : SaleReq} {e : Err}
    (h : processItems s r.items = .error e) :
    createSaleTx s r = .error e := by
  simp [createSaleTx, h, Bind.bind, Except.bind]

theorem createSale_of_tx_error {s : State} {r : SaleReq} {e : Err}
    (hne : r.items.isEmpty = false) (h : createSaleTx s r = .error e) :
    createSale s r = (s, .error e) := by
  simp [createSale, hne, h]

/-- C1: for every createSale request in which some line item's requested
quantity exceeds the product's total active on-hand stock (all referenced
products existing, stocks non-negative, batch ids unique), the operation
fails with an insufficient-stock error and the resulting state is exactly
the pre-call state — no stock deduction, sale record, stock-log entry or
ledger entry from any line item is observable. -/
theorem C1_insufficient_stock_atomic (s : State) (r : SaleReq)
    (hnn : ∀ i ∈ s.inventory, 0 ≤ i.current_stock)
    (hnd : (s.inventory.map fun i => i.inventory_id).Nodup)
    (hprod : ∀ it ∈ r.items, (findProduct s it.productId).isSome)
    (hbad : ∃ it ∈ r.items, totalOnHand s it.productId < it.quantity) :
    (createSale s r).1 = s ∧
      ∃ pid a q, (createSale s r).2 = .error (.insufficientStock pid a q) := by
  have hne : r.items.isEmpty = false := by
    obtain ⟨it, hmem, _⟩ := hbad
    cases hitems : r.items with
    | nil =>
      rw [hitems] at hmem
      simp at hmem
    | cons a t => simp [hitems]
  obtain ⟨pid, a, q, hres⟩ :=
    processItems_insufficient r.items s hnn hnd hprod hbad
  have htx := createSaleTx_error (r := r) hres
  have hcs := createSale_of_tx_error hne htx
  rw [hcs]
  exact ⟨rfl, pid, a, q, rfl⟩

/-- Concrete state for the C1 witness: one product with a single batch of
2 units on hand. -/
def c1S : State :=
  { products := [⟨1, 50, none⟩],
    inventory := [⟨1, 1, 2, true, none⟩],
    customers := [], suppliers := [], sales := [], stock_log := [],
    account_ledger := [], purchase_orders := [], supplies := [],
    transactions := [],
    next_inventory_id := 2, next_sale_id := 1, next_po_id := 1,
    next_supply_id := 1 }

/-- Concrete request for the C1 witness: 5 units requested of the product
with only 2 on hand. -/
def c1R : SaleReq := ⟨none, [⟨1, 5, some 50⟩], 0, some 250⟩

theorem C1_insufficient_stock_atomic_witness :
    (∀ i ∈ c1S.inventory, 0 ≤ i.current_stock) ∧
    ((c1S.inventory.map fun i => i.inventory_id).Nodup) ∧
    (∀ it ∈ c1R.items, (findProduct c1S it.productId).isSome) ∧
    (∃ it ∈ c1R.items, totalOnHand c1S it.productId < it.quantity) ∧
    ((createSale c1S c1R).1 = c1S ∧
      ∃ pid a q, (createSale c1S c1R).2 = .error (.insufficientStock pid a q)) :=
  ⟨by decide, by decide, by decide, by decide,
    C1_insufficient_stock_atomic c1S c1R (by decide) (by decide) (by decide)
      (by decide)⟩

/-- Concrete state for the C2 evaluation: product 1 at price 50.00 with 10
units on hand, customer 1 with credit_balance 0 and an empty ledger. -/
def c2S : State :=
  { products := [⟨1, 50, none⟩],
    inventory := [⟨1, 1, 10, true, none⟩],
    customers := [⟨1, 0⟩], suppliers := [], sales := [], stock_log := [],
    account_ledger := [], purchase_orders := [], supplies := [],
    transactions := [],
    next_inventory_id := 2, next_sale_id := 1, next_po_id := 1,
    next_supply_id := 1 }

/-- The credit-sale scenario request: customer 1 buys 3 units at 50.00
with `amountPaid = 0`. -/
def c2R : SaleReq := ⟨some 1, [⟨1, 3, some 50⟩], 0, some 0⟩

/-- C2: the claim says a sale with `amountPaid = 0` gets status UNPAID and
posts the 150.00 as customer credit.  In the code, however,
`const paidAmount = amountPaid || totalAmount` treats the number 0 as
falsy, so `paidAmount` becomes the full 150.00: the persisted status is
PAID, the customer's credit_balance stays 0 and no ledger entry is
written.  (The code's own `paidAmount > 0 ? 'PARTIAL' : 'UNPAID'` branch
shows UNPAID was intended for zero payments, so this is a code bug.) -/
theorem C2_zero_amountPaid_yields_PAID :
    ((createSale c2S c2R).2.toOption.map fun sa =>
        (sa.sale_status, sa.amount_paid)) = some (SaleStatus.PAID, 150) ∧
    (createSale c2S c2R).1.customers = [⟨1, 0⟩] ∧
    (createSale c2S c2R).1.account_ledger = [] := by
  norm_num [createSale, createSaleTx, finishSale, paidAmountOf, saleStatusOf,
    processItems, c2S, c2R, findProduct,
    saleBatches, sumStocks, effectivePrice, fifoPlan, applyPlan, setStock,
    List.insertionSort, List.orderedInsert, customerExists,
    incCustomerBalance, Bind.bind, Except.bind, Pure.pure, Except.pure,
    Except.toOption, Option.map]

/-! ### C4: the persisted total -/

/-- The sum the item loop accumulates: Σ quantity × effective unit price
(catalog price where the item price is absent or zero).  The request's
`discount` field does not occur: the route destructures it but never uses
it. -/
def expectedSubtotal (s : State) (items : List SaleItem) : Money :=
  (items.map fun it =>
    match findProduct s it.productId with
    | some p => (it.quantity : Money) * effectivePrice it p
    | none => 0).sum

theorem expectedSubtotal_nil (s : State) : expectedSubtotal s [] = 0 := rfl

theorem expectedSubtotal_cons (s : State) (it : SaleItem)
    (rest : List SaleItem) :
    expectedSubtotal s (it :: rest) =
      (match findProduct s it.productId with
        | some p => (it.quantity : Money) * effectivePrice it p
        | none => 0) + expectedSubtotal s rest := by
  simp [expectedSubtotal]

theorem expectedSubtotal_congr {s1 s2 : State}
    (h : ∀ pid, findProduct s1 pid = findProduct s2 pid)
    (items : List SaleItem) :
    expectedSubtotal s1 items = expectedSubtotal s2 items := by
  unfold expectedSubtotal
  congr 1
  exact List.map_congr_left fun it _ => by rw [h it.productId]

/-- The item loop never touches the sales table. -/
theorem processItems_sales : ∀ (items : List SaleItem) (s s' : State)
    (sub : Money) (ds : List SaleDetail),
    processItems s items = .ok (s', sub, ds) → s'.sales = s.sales
  | [], s, s', sub, ds, h => by
    rw [processItems_nil] at h
    cases h
    rfl
  | it :: rest, s, s', sub, ds, h => by
    cases hp : findProduct s it.productId with
    | none =>
      rw [processItems_cons_none s it rest hp] at h
      cases h
    | some p =>
      by_cases hlt : sumStocks (saleBatches s it.productId) < it.quantity
      · rw [processItems_cons_insufficient s it rest p hp hlt] at h
        cases h
      · rw [processItems_cons_ok s it rest p hp hlt] at h
        cases hrec : processItems
            (applyPlan s (fifoPlan (saleBatches s it.productId) it.quantity))
            rest with
        | error e =>
          rw [hrec] at h
          cases h
        | ok v =>
          obtain ⟨s2, sub2, ds2⟩ := v
          rw [hrec] at h
          cases h
          rw [processItems_sales rest _ _ _ _ hrec, applyPlan_sales]

/-- On success the accumulated subtotal is exactly
`Σ quantity × effective unit price` over the items, judged against the
initial state's catalog. -/
theorem processItems_subtotal : ∀ (items : List SaleItem) (s s' : State)
    (sub : Money) (ds : List SaleDetail),
    processItems s items = .ok (s', sub, ds) → sub = expectedSubtotal s items
  | [], s, s', sub, ds, h => by
    rw [processItems_nil] at h
    cases h
    simp [expectedSubtotal]
  | it :: rest, s, s', sub, ds, h => by
    cases hp : findProduct s it.productId with
    | none =>
      rw [processItems_cons_none s it rest hp] at h
      cases h
    | some p =>
      by_cases hlt : sumStocks (saleBatches s it.productId) < it.quantity
      · rw [processItems_cons_insufficient s it rest p hp hlt] at h
        cases h
      · rw [processItems_cons_ok s it rest p hp hlt] at h
        cases hrec : processItems
            (applyPlan s (fifoPlan (saleBatches s it.productId) it.quantity))
            rest with
        | error e =>
          rw [hrec] at h
          cases h
        | ok v =>
          obtain ⟨s2, sub2, ds2⟩ := v
          rw [hrec] at h
          cases h
          have hsub2 := processItems_subtotal rest _ _ _ _ hrec
          have hcongr := expectedSubtotal_congr
            (fun pid => findProduct_applyPlan s
              (fifoPlan (saleBatches s it.productId) it.quantity) pid) rest
          rw [expectedSubtotal_cons, hp, hsub2, hcongr]

/-! ### Characterizing `finishSale` -/

/-- On success, the persisted sale record is fully determined by the loop
results: its `total_amount` is the accumulated subtotal (the request's
`discount` plays no part). -/
theorem finishSale_ok_sale {s1 : State} {r : SaleReq} {subtotal : Money}
    {details : List SaleDetail} {s' : State} {sale : Sale}
    (h : finishSale s1 r subtotal details = .ok (s', sale)) :
    sale = { sale_id := s1.next_sale_id, customer_id := r.customerId,
             total_amount := subtotal,
             amount_paid := paidAmountOf r.amountPaid subtotal,
             sale_status := saleStatusOf (paidAmountOf r.amountPaid subtotal)
               subtotal,
             is_active := true, sale_details := details } := by
  cases hc : r.customerId with
  | none =>
    simp only [finishSale, hc, Bind.bind, Except.bind, Pure.pure,
      Except.pure] at h
    cases h
    rfl
  | some cid =>
    simp only [finishSale, hc, Bind.bind, Except.bind, Pure.pure,
      Except.pure] at h
    by_cases hst : saleStatusOf (paidAmountOf r.amountPaid subtotal) subtotal
        = SaleStatus.PAID
    · simp only [hst, ne_eq, not_true_eq_false, if_false] at h
      cases h
      simp [hst]
    · simp only [hst, ne_eq, not_false_eq_true, if_true] at h
      by_cases hce : customerExists
          { s1 with
            sales := s1.sales ++
              [{ sale_id := s1.next_sale_id, customer_id := some cid,
                 total_amount := subtotal,
                 amount_paid := paidAmountOf r.amountPaid subtotal,
                 sale_status := saleStatusOf (paidAmountOf r.amountPaid subtotal)
                   subtotal,
                 is_active := true, sale_details := details }],
            next_sale_id := s1.next_sale_id + 1,
            stock_log := s1.stock_log ++ details.map fun d =>
              { product_id := d.product_id, change_type := ChangeType.SALE,
                quantity := -d.quantity } } cid = true
      · simp only [hce, if_true] at h
        cases h
        rfl
      · simp only [hce, Bool.false_eq_true, if_false] at h
        cases h

/-- On success, `finishSale` appends the sale to the sales table, never
touches suppliers, and changes customers/ledger only in the credit branch
(customer present, status not PAID): a balance increment paired with one
ledger debit for `totalAmount - paidAmount`. -/
theorem finishSale_state {s1 : State} {r : SaleReq} {subtotal : Money}
    {details : List SaleDetail} {s' : State} {sale : Sale}
    (h : finishSale s1 r subtotal details = .ok (s', sale)) :
    s'.sales = s1.sales ++ [sale] ∧
    s'.suppliers = s1.suppliers ∧
    ((s'.customers = s1.customers ∧ s'.account_ledger = s1.account_ledger) ∨
     (∃ cid, r.customerId = some cid ∧
        s'.customers = s1.customers.map (fun c =>
          if c.customer_id == cid then
            { c with credit_balance := c.credit_balance +
                (subtotal - paidAmountOf r.amountPaid subtotal) }
          else c) ∧
        s'.account_ledger = s1.account_ledger ++
          [{ account_type := AccountType.customer, account_id := cid,
             reference_type := RefType.SALE,
             reference_id := some s1.next_sale_id,
             debit := subtotal - paidAmountOf r.amountPaid subtotal,
             credit := 0 }])) := by
  have hsale := finishSale_ok_sale h
  cases hc : r.customerId with
  | none =>
    simp only [finishSale, hc, Bind.bind, Except.bind, Pure.pure,
      Except.pure] at h
    cases h
    refine ⟨by simp [hsale, hc], rfl, Or.inl ⟨rfl, rfl⟩⟩
  | some cid =>
    simp only [finishSale, hc, Bind.bind, Except.bind, Pure.pure,
      Except.pure] at h
    by_cases hst : saleStatusOf (paidAmountOf r.amountPaid subtotal) subtotal
        = SaleStatus.PAID
    · simp only [hst, ne_eq, not_true_eq_false, if_false] at h
      cases h
      refine ⟨by simp [hsale, hc, hst], rfl, Or.inl ⟨rfl, rfl⟩⟩
    · simp only [hst, ne_eq, not_false_eq_true, if_true] at h
      by_cases hce : customerExists
          { s1 with
            sales := s1.sales ++
              [{ sale_id := s1.next_sale_id, customer_id := some cid,
                 total_amount := subtotal,
                 amount_paid := paidAmountOf r.amountPaid subtotal,
                 sale_status := saleStatusOf (paidAmountOf r.amountPaid subtotal)
                   subtotal,
                 is_active := true, sale_details := details }],
            next_sale_id := s1.next_sale_id + 1,
            stock_log := s1.stock_log ++ details.map fun d =>
              { product_id := d.product_id, change_type := ChangeType.SALE,
                quantity := -d.quantity } } cid = true
      · simp only [hce, if_true] at h
        cases h
        refine ⟨by simp [hsale, hc, incCustomerBalance], rfl,
          Or.inr ⟨cid, rfl, ?_, ?_⟩⟩
        · simp [incCustomerBalance, hc]
        · simp [incCustomerBalance, hc]
      · simp only [hce, Bool.false_eq_true, if_false] at h
        cases h

/-- C4 (amended): for every successful `createSale`, the persisted sale's
total amount equals `Σ quantity × effective unit price` over the line
items; the `discount` argument is accepted but ignored, so it is never
subtracted. -/
theorem C4_total_ignores_discount (s : State) (r : SaleReq) (s' : State)
    (sale : Sale) (h : createSale s r = (s', .ok sale)) :
    sale.total_amount = expectedSubtotal s r.items ∧
      s'.sales = s.sales ++ [sale] := by
  by_cases hempty : r.items.isEmpty = true
  · simp [createSale, hempty] at h
  · simp only [createSale, hempty, Bool.false_eq_true, if_false] at h
    cases htx : createSaleTx s r with
    | error e =>
      rw [htx] at h
      simp at h
    | ok v =>
      obtain ⟨s5, sale0⟩ := v
      rw [htx] at h
      simp only [Prod.mk.injEq, Except.ok.injEq] at h
      obtain ⟨rfl, rfl⟩ := h
      cases hpi : processItems s r.items with
      | error e =>
        rw [createSaleTx_error hpi] at htx
        cases htx
      | ok w =>
        obtain ⟨s1, subtotal, details⟩ := w
        simp only [createSaleTx, hpi, Bind.bind, Except.bind] at htx
        have hsale := finishSale_ok_sale htx
        have hstate := finishSale_state htx
        have hsub := processItems_subtotal r.items s s1 subtotal details hpi
        have hsales := processItems_sales r.items s s1 subtotal details hpi
        constructor
        · rw [hsale, ← hsub]
        · rw [hstate.1, hsales]

/-- Concrete state for C4: product 1 at catalog price 50 with 10 on hand. -/
def c4S : State :=
  { products := [⟨1, 50, none⟩],
    inventory := [⟨1, 1, 10, true, none⟩],
    customers := [], suppliers := [], sales := [], stock_log := [],
    account_ledger := [], purchase_orders := [], supplies := [],
    transactions := [],
    next_inventory_id := 2, next_sale_id := 1, next_po_id := 1,
    next_supply_id := 1 }

/-- Concrete request for C4: one unit at 50.00 with a discount of 10.00. -/
def c4R : SaleReq := ⟨none, [⟨1, 1, some 50⟩], 10, some 50⟩

/-- The sale record the code persists for `c4R`. -/
def c4Sale : Sale := ⟨1, none, 50, 50, SaleStatus.PAID, true, [⟨1, 1, 50⟩]⟩

/-- C4 counterexample: with `discount = 10` on a single 50.00 line item the
code persists `total_amount = 50.00`, not the claim's
`Σ(quantity × unitPrice) − discount = 40.00`. -/
theorem C4_discount_counterexample :
    ((createSale c4S c4R).2.toOption.map fun sa => sa.total_amount) =
        some 50 ∧
    c4R.discount = 10 ∧
    ((1 : Money) * 50 - c4R.discount ≠ 50) := by
  refine ⟨?_, rfl, by norm_num [c4R]⟩
  norm_num [createSale, createSaleTx, finishSale, paidAmountOf, saleStatusOf,
    processItems, c4S, c4R, findProduct,
    saleBatches, sumStocks, effectivePrice, fifoPlan, applyPlan, setStock,
    List.insertionSort, List.orderedInsert, customerExists,
    incCustomerBalance, Bind.bind, Except.bind, Pure.pure, Except.pure,
    Except.toOption, Option.map]

theorem C4_total_ignores_discount_witness :
    ∃ s', createSale c4S c4R = (s', .ok c4Sale) ∧
      c4Sale.total_amount = expectedSubtotal c4S c4R.items ∧
      s'.sales = c4S.sales ++ [c4Sale] := by
  have h2 : (createSale c4S c4R).2 = .ok c4Sale := by
    norm_num [createSale, createSaleTx, finishSale, paidAmountOf, saleStatusOf,
      processItems, c4S, c4R, c4Sale, findProduct,
      saleBatches, sumStocks, effectivePrice, fifoPlan, applyPlan, setStock,
      List.insertionSort, List.orderedInsert, customerExists,
      incCustomerBalance, Bind.bind, Except.bind, Pure.pure, Except.pure]
  have hpair : createSale c4S c4R = ((createSale c4S c4R).1, .ok c4Sale) := by
    rw [← h2]
  exact ⟨(createSale c4S c4R).1, hpair,
    (C4_total_ignores_discount c4S c4R _ _ hpair).1,
    (C4_total_ignores_discount c4S c4R _ _ hpair).2⟩

/-! ### C9: payment clamping -/

/-- Arithmetic of the clamp: subtracting `Math.min(amount, balance)` is the
same as flooring `balance - amount` at zero. -/
theorem money_clamp (bal a : Money) : bal - min a bal = max 0 (bal - a) := by
  rcases le_total a bal with h | h
  · rw [min_eq_left h, max_eq_right (by linarith)]
  · rw [min_eq_right h, max_eq_left (by linarith)]
    ring

/-- C9: a positive customer or supplier payment exceeding the outstanding
balance is clamped, not rejected: the operation succeeds, the returned new
balance is `max 0 (balance − amount)`, and the posted ledger credit equals
the clamped amount `min amount balance`. -/
theorem C9_payment_clamped (s : State) (cid sid : Nat) (a b : Money)
    (c : Customer) (u : Supplier) (ha : 0 < a) (hb : 0 < b)
    (hcus : s.customers.find? (fun x => x.customer_id == cid) = some c)
    (hsup : s.suppliers.find? (fun x => x.supplier_id == sid) = some u) :
    (∃ s1, recordCustomerPayment s cid a =
        (s1, .ok (max 0 (c.credit_balance - a))) ∧
      s1.account_ledger = s.account_ledger ++
        [{ account_type := AccountType.customer, account_id := cid,
           reference_type := RefType.PAYMENT, reference_id := none,
           debit := 0, credit := min a c.credit_balance }]) ∧
    (∃ s2, recordSupplierPayment s sid b =
        (s2, .ok (max 0 (u.payable_balance - b))) ∧
      s2.account_ledger = s.account_ledger ++
        [{ account_type := AccountType.supplier, account_id := sid,
           reference_type := RefType.PAYMENT, reference_id := none,
           debit := 0, credit := min b u.payable_balance }]) := by
  constructor
  · refine ⟨(recordCustomerPayment s cid a).1, ?_, ?_⟩
    · have h2 : (recordCustomerPayment s cid a).2 =
          .ok (max 0 (c.credit_balance - a)) := by
        simp only [recordCustomerPayment, not_le.mpr ha, if_false, hcus,
          money_clamp]
      rw [← h2]
    · simp [recordCustomerPayment, not_le.mpr ha, hcus, setCustomerBalance]
  · refine ⟨(recordSupplierPayment s sid b).1, ?_, ?_⟩
    · have h2 : (recordSupplierPayment s sid b).2 =
          .ok (max 0 (u.payable_balance - b)) := by
        simp only [recordSupplierPayment, not_le.mpr hb, if_false, hsup,
          money_clamp]
      rw [← h2]
    · simp [recordSupplierPayment, not_le.mpr hb, hsup, setSupplierBalance]

/-- Concrete state for the C9 witness: customer 1 owing 40.00, supplier 2
owed 40.00, both paid 100.00. -/
def c9S : State :=
  { products := [], inventory := [],
    customers := [⟨1, 40⟩], suppliers := [⟨2, 40⟩], sales := [],
    stock_log := [], account_ledger := [], purchase_orders := [],
    supplies := [], transactions := [],
    next_inventory_id := 1, next_sale_id := 1, next_po_id := 1,
    next_supply_id := 1 }

theorem C9_payment_clamped_witness :
    (0 : Money) < 100 ∧
    c9S.customers.find? (fun x => x.customer_id == 1) = some ⟨1, 40⟩ ∧
    c9S.suppliers.find? (fun x => x.supplier_id == 2) = some ⟨2, 40⟩ ∧
    ((∃ s1, recordCustomerPayment c9S 1 100 =
        (s1, .ok (max 0 ((40 : Money) - 100))) ∧
      s1.account_ledger = c9S.account_ledger ++
        [{ account_type := AccountType.customer, account_id := 1,
           reference_type := RefType.PAYMENT, reference_id := none,
           debit := 0, credit := min (100 : Money) 40 }]) ∧
    (∃ s2, recordSupplierPayment c9S 2 100 =
        (s2, .ok (max 0 ((40 : Money) - 100))) ∧
      s2.account_ledger = c9S.account_ledger ++
        [{ account_type := AccountType.supplier, account_id := 2,
           reference_type := RefType.PAYMENT, reference_id := none,
           debit := 0, credit := min (100 : Money) 40 }])) :=
  ⟨by norm_num, by decide, by decide,
    C9_payment_clamped c9S 1 2 100 100 ⟨1, 40⟩ ⟨2, 40⟩ (by norm_num)
      (by norm_num) (by decide) (by decide)⟩

/-! ### C10: manual stock adjustment -/

/-- Raw (unfiltered) version of the single-row-update sum lemma. -/
theorem sumStocks_updateRow_raw :
    ∀ (l : List Inventory) (iid : Nat) (f : Inventory → Int) (inv : Inventory),
    (l.map fun i => i.inventory_id).Nodup → inv ∈ l → inv.inventory_id = iid →
    sumStocks (l.map fun i =>
        if i.inventory_id == iid then { i with current_stock := f i } else i) =
      sumStocks l + (f inv - inv.current_stock)
  | [], _, _, _, _, hmem, _ => by simp at hmem
  | a :: t, iid, f, inv, hnd, hmem, hid => by
    have hndt : (t.map fun i => i.inventory_id).Nodup :=
      (List.nodup_cons.mp hnd).2
    rcases List.mem_cons.mp hmem with rfl | hmemt
    · have hbeq : (inv.inventory_id == iid) = true := by simp [hid]
      have htail : ∀ j ∈ t, j.inventory_id ≠ iid := by
        intro j hj hje
        exact (List.nodup_cons.mp hnd).1
          (List.mem_map.mpr ⟨j, hj, hje.trans hid.symm⟩)
      have hmapt : (t.map fun i =>
          if i.inventory_id == iid then { i with current_stock := f i } else i) = t := by
        have h1 : (t.map fun i =>
            if i.inventory_id == iid then { i with current_stock := f i } else i) =
            t.map id :=
          List.map_congr_left fun j hj => by simp [htail j hj]
        simpa using h1
      rw [List.map_cons, hmapt]
      simp only [hbeq, if_true, sumStocks_cons]
      ring
    · have hane : a.inventory_id ≠ iid := by
        intro hae
        exact (List.nodup_cons.mp hnd).1
          (List.mem_map.mpr ⟨inv, hmemt, hid.trans hae.symm⟩)
      have hrec := sumStocks_updateRow_raw t iid f inv hndt hmemt hid
      have hahead : (if (a.inventory_id == iid) = true then
          { a with current_stock := f a } else a) = a := by
        simp [hane]
      rw [List.map_cons, hahead, sumStocks_cons, sumStocks_cons, hrec]
      ring

/-- C10: the direction of an `adjustStock` change is determined solely by
`adjustmentType`.  A zero quantity is rejected before any state change; on
success the applied delta is `-|quantity|` for DECREASE and `+|quantity|`
otherwise (so a negative quantity with an increase type still adds
`|quantity|`), the raw total stock changes by exactly that delta, and the
ADJUSTMENT log entry records it. -/
theorem C10_adjust_direction (s : State) (r : AdjustReq) :
    (r.quantity = 0 →
      adjustStock s r = (s, .error (.validation "Quantity and reason are required"))) ∧
    (∀ s1 d, (s.inventory.map fun i => i.inventory_id).Nodup →
      adjustStock s r = (s1, .ok d) →
      d = (if r.adjustmentType = "DECREASE" then -(|r.quantity|) else |r.quantity|) ∧
      sumStocks s1.inventory = sumStocks s.inventory + d ∧
      ∃ pid, s1.stock_log = s.stock_log ++
        [{ product_id := pid, change_type := ChangeType.ADJUSTMENT,
           quantity := d }]) := by
  constructor
  · intro h0
    simp [adjustStock, h0]
  · intro s1 d hnd hok
    by_cases hv1 : r.quantity = 0 ∨ r.reason = ""
    · simp [adjustStock, hv1] at hok
    · by_cases hv2 : r.inventoryId = none ∧ r.productId = none
      · simp [adjustStock, hv1, hv2] at hok
      · simp only [adjustStock, hv1, if_false, hv2] at hok
        cases hinv : r.inventoryId with
        | some invId =>
          simp only [hinv] at hok
          cases hfind : s.inventory.find? (fun i => i.inventory_id == invId) with
          | none =>
            simp only [hfind] at hok
            cases hok
          | some inv =>
            simp only [hfind] at hok
            by_cases hneg : inv.current_stock +
                (if r.adjustmentType = "DECREASE" then -(|r.quantity|)
                 else |r.quantity|) < 0
            · rw [if_pos hneg] at hok
              cases hok
            · rw [if_neg hneg] at hok
              cases hok
              have hmem := List.mem_of_find?_eq_some hfind
              have hide : inv.inventory_id = invId := by
                have := List.find?_some hfind
                simpa using this
              refine ⟨rfl, ?_, inv.product_id, by simp [logAdjustment, setStock]⟩
              have := sumStocks_updateRow_raw s.inventory invId
                (fun i => inv.current_stock +
                  (if r.adjustmentType = "DECREASE" then -(|r.quantity|)
                   else |r.quantity|)) inv hnd hmem hide
              simp only [logAdjustment, setStock] at *
              rw [this]
              ring
        | none =>
          simp only [hinv] at hok
          cases hpidq : r.productId with
          | none =>
            simp only [hpidq] at hok
            cases hok
          | some pid =>
            simp only [hpidq] at hok
            cases hfa : firstActiveInv s pid with
            | some inv =>
              simp only [hfa] at hok
              by_cases hneg : inv.current_stock +
                  (if r.adjustmentType = "DECREASE" then -(|r.quantity|)
                   else |r.quantity|) < 0
              · rw [if_pos hneg] at hok
                cases hok
              · rw [if_neg hneg] at hok
                cases hok
                have hmem := List.mem_of_find?_eq_some hfa
                refine ⟨rfl, ?_, inv.product_id, by simp [logAdjustment, setStock]⟩
                have := sumStocks_updateRow_raw s.inventory inv.inventory_id
                  (fun i => inv.current_stock +
                    (if r.adjustmentType = "DECREASE" then -(|r.quantity|)
                     else |r.quantity|)) inv hnd hmem rfl
                simp only [logAdjustment, setStock] at *
                rw [this]
                ring
            | none =>
              simp only [hfa] at hok
              by_cases hneg : (if r.adjustmentType = "DECREASE" then
                  -(|r.quantity|) else |r.quantity|) < 0
              · rw [if_pos hneg] at hok
                cases hok
              · rw [if_neg hneg] at hok
                cases hfp : findProduct s pid with
                | none =>
                  simp only [hfp] at hok
                  cases hok
                | some p =>
                  simp only [hfp] at hok
                  cases hok
                  refine ⟨rfl, ?_, pid, by simp [logAdjustment]⟩
                  simp [logAdjustment, sumStocks_append, sumStocks]

/-- Concrete state for the C10 witness: one batch of 10 units. -/
def c10S : State :=
  { products := [⟨1, 50, none⟩],
    inventory := [⟨1, 1, 10, true, none⟩],
    customers := [], suppliers := [], sales := [], stock_log := [],
    account_ledger := [], purchase_orders := [], supplies := [],
    transactions := [],
    next_inventory_id := 2, next_sale_id := 1, next_po_id := 1,
    next_supply_id := 1 }

/-- Concrete request for the C10 witness: quantity −4 submitted with an
increase type still increases stock by 4. -/
def c10R : AdjustReq := ⟨some 1, none, "INCREASE", -4, "recount"⟩

theorem C10_adjust_direction_witness :
    ∃ s1, adjustStock c10S c10R = (s1, .ok 4) ∧
      sumStocks s1.inventory = sumStocks c10S.inventory + 4 ∧
      ∃ pid, s1.stock_log = c10S.stock_log ++
        [{ product_id := pid, change_type := ChangeType.ADJUSTMENT,
           quantity := 4 }] := by
  have h2 : (adjustStock c10S c10R).2 = .ok 4 := by decide
  have h3 : ((adjustStock c10S c10R).1, (adjustStock c10S c10R).2) =
      adjustStock c10S c10R := rfl
  rw [h2] at h3
  obtain ⟨hd, hsum, hlog⟩ :=
    (C10_adjust_direction c10S c10R).2 (adjustStock c10S c10R).1 4
      (by decide) h3.symm
  exact ⟨(adjustStock c10S c10R).1, h3.symm, hsum, hlog⟩

/-! ### C6: bulk conversion -/

theorem firstActiveInv_some {s : State} {pid : Nat} {inv : Inventory}
    (h : firstActiveInv s pid = some inv) :
    inv ∈ s.inventory ∧ inv.product_id = pid ∧ inv.is_active = true := by
  have hm := List.mem_of_find?_eq_some h
  have hp := List.find?_some h
  simp only [Bool.and_eq_true, beq_iff_eq] at hp
  exact ⟨hm, hp.1, hp.2⟩

/-- C6: `convertBulk(src, tgt, n)` with the target's effective conversion
factor r (`quantity_per_case || 1`) fails with an insufficient-stock error
and leaves the state unchanged when the source's total active stock is
below n; otherwise it succeeds, the source total drops by exactly n, the
target total rises by exactly n×r, and every other product's total is
untouched. -/
theorem C6_convertBulk_conservation (s : State) (src tgt : Nat) (n : Int)
    (tp : Product)
    (hsrc0 : src ≠ 0) (htgt0 : tgt ≠ 0) (hn : 0 < n) (hne : tgt ≠ src)
    (hsp : (findProduct s src).isSome)
    (htp : findProduct s tgt = some tp)
    (hnn : ∀ i ∈ s.inventory, 0 ≤ i.current_stock)
    (hnd : (s.inventory.map fun i => i.inventory_id).Nodup) :
    (totalOnHand s src < n →
      convertBulk s src tgt n =
        (s, .error (.insufficientStock src (totalOnHand s src) n))) ∧
    (n ≤ totalOnHand s src →
      ∃ s3, convertBulk s src tgt n =
          (s3, .ok (n, n * conversionFactor tp)) ∧
        totalOnHand s3 src = totalOnHand s src - n ∧
        totalOnHand s3 tgt = totalOnHand s tgt + n * conversionFactor tp ∧
        (∀ pid, pid ≠ src → pid ≠ tgt →
          totalOnHand s3 pid = totalOnHand s pid)) := by
  obtain ⟨sp, hsp2⟩ := Option.isSome_iff_exists.mp hsp
  have hval : ¬ (src = 0 ∨ tgt = 0 ∨ n = 0) := by
    push_neg
    exact ⟨hsrc0, htgt0, by omega⟩
  have htots : sumStocks (saleBatches s src) = totalOnHand s src :=
    sumStocks_saleBatches src hnn
  constructor
  · intro hlt
    have hlt2 : sumStocks (saleBatches s src) < n := by omega
    simp only [convertBulk, hval, if_false, hsp2, htp]
    rw [if_pos hlt2, htots]
  · intro hle
    have hnotlt : ¬ sumStocks (saleBatches s src) < n := by omega
    have hnd1 : ((applyPlan s (fifoPlan (saleBatches s src) n)).inventory.map
        fun i => i.inventory_id).Nodup := by
      rw [applyPlan_ids]
      exact hnd
    have hsrcTot : totalOnHand (applyPlan s (fifoPlan (saleBatches s src) n)) src =
        totalOnHand s src - n :=
      allocate_deducts s src n hnn hnd (by omega) hle
    have hothTot : ∀ pid, pid ≠ src →
        totalOnHand (applyPlan s (fifoPlan (saleBatches s src) n)) pid =
          totalOnHand s pid := by
      intro pid hpid
      rw [allocate_totalOnHand s src n pid hnd, if_neg hpid]
      ring
    cases hfa : firstActiveInv (applyPlan s (fifoPlan (saleBatches s src) n)) tgt with
    | some inv =>
      obtain ⟨hmem, hprod, hact⟩ := firstActiveInv_some hfa
      have hcb : convertBulk s src tgt n =
          ({ (incStock (applyPlan s (fifoPlan (saleBatches s src) n))
                inv.inventory_id (n * conversionFactor tp)) with
             stock_log := (incStock (applyPlan s (fifoPlan (saleBatches s src) n))
                inv.inventory_id (n * conversionFactor tp)).stock_log ++
              [{ product_id := src, change_type := ChangeType.CONVERSION,
                 quantity := -n },
               { product_id := tgt, change_type := ChangeType.CONVERSION,
                 quantity := n * conversionFactor tp }] },
            .ok (n, n * conversionFactor tp)) := by
        simp only [convertBulk, hval, if_false, hsp2, htp, hnotlt, hfa]
      refine ⟨_, hcb, ?_, ?_, ?_⟩
      · show totalOnHand (incStock _ inv.inventory_id _) src = _
        rw [totalOnHand_incStock src _ hnd1 hmem,
          if_neg (by rw [hprod]; simp [hne]), hsrcTot]
        ring
      · show totalOnHand (incStock _ inv.inventory_id _) tgt = _
        rw [totalOnHand_incStock tgt _ hnd1 hmem, if_pos ⟨hprod, hact⟩,
          hothTot tgt hne]
      · intro pid hpsrc hptgt
        show totalOnHand (incStock _ inv.inventory_id _) pid = _
        rw [totalOnHand_incStock pid _ hnd1 hmem,
          if_neg (by rw [hprod]; simp [Ne.symm hptgt]), hothTot pid hpsrc]
        ring
    | none =>
      have hcb : convertBulk s src tgt n =
          ({ (applyPlan s (fifoPlan (saleBatches s src) n)) with
             inventory := (applyPlan s (fifoPlan (saleBatches s src) n)).inventory ++
               [{ inventory_id := (applyPlan s
                    (fifoPlan (saleBatches s src) n)).next_inventory_id,
                  product_id := tgt,
                  current_stock := n * conversionFactor tp, is_active := true,
                  expiration_date := none }],
             next_inventory_id := (applyPlan s
               (fifoPlan (saleBatches s src) n)).next_inventory_id + 1,
             stock_log := (applyPlan s
               (fifoPlan (saleBatches s src) n)).stock_log ++
              [{ product_id := src, change_type := ChangeType.CONVERSION,
                 quantity := -n },
               { product_id := tgt, change_type := ChangeType.CONVERSION,
                 quantity := n * conversionFactor tp }] },
            .ok (n, n * conversionFactor tp)) := by
        simp only [convertBulk, hval, if_false, hsp2, htp, hnotlt, hfa]
      simp only [totalOnHand] at hsrcTot hothTot
      refine ⟨_, hcb, ?_, ?_, ?_⟩
      · have := totalOnHand_appendRow (applyPlan s (fifoPlan (saleBatches s src) n))
          { inventory_id := (applyPlan s
              (fifoPlan (saleBatches s src) n)).next_inventory_id,
            product_id := tgt, current_stock := n * conversionFactor tp,
            is_active := true, expiration_date := none } src
        simp only [totalOnHand] at this ⊢
        rw [this, hsrcTot]
        simp [hne]
      · have := totalOnHand_appendRow (applyPlan s (fifoPlan (saleBatches s src) n))
          { inventory_id := (applyPlan s
              (fifoPlan (saleBatches s src) n)).next_inventory_id,
            product_id := tgt, current_stock := n * conversionFactor tp,
            is_active := true, expiration_date := none } tgt
        simp only [totalOnHand] at this ⊢
        rw [this, hothTot tgt hne]
        simp
      · intro pid hpsrc hptgt
        have := totalOnHand_appendRow (applyPlan s (fifoPlan (saleBatches s src) n))
          { inventory_id := (applyPlan s
              (fifoPlan (saleBatches s src) n)).next_inventory_id,
            product_id := tgt, current_stock := n * conversionFactor tp,
            is_active := true, expiration_date := none } pid
        simp only [totalOnHand] at this ⊢
        rw [this, hothTot pid hpsrc]
        simp [Ne.symm hptgt]

/-- Concrete state for the C6 witness: bulk product 1 with 5 on hand,
retail product 2 (conversion factor 10) with 3 on hand. -/
def c6S : State :=
  { products := [⟨1, 50, none⟩, ⟨2, 20, some 10⟩],
    inventory := [⟨1, 1, 5, true, none⟩, ⟨2, 2, 3, true, none⟩],
    customers := [], suppliers := [], sales := [], stock_log := [],
    account_ledger := [], purchase_orders := [], supplies := [],
    transactions := [],
    next_inventory_id := 3, next_sale_id := 1, next_po_id := 1,
    next_supply_id := 1 }

/-- The target product row of `c6S`. -/
def c6TP : Product := ⟨2, 20, some 10⟩

theorem C6_convertBulk_conservation_witness :
    (2 : Int) ≤ totalOnHand c6S 1 ∧
    ∃ s3, convertBulk c6S 1 2 2 = (s3, .ok (2, 2 * conversionFactor c6TP)) ∧
      totalOnHand s3 1 = totalOnHand c6S 1 - 2 ∧
      totalOnHand s3 2 = totalOnHand c6S 2 + 2 * conversionFactor c6TP ∧
      (∀ pid, pid ≠ 1 → pid ≠ 2 → totalOnHand s3 pid = totalOnHand c6S pid) :=
  ⟨by decide,
    (C6_convertBulk_conservation c6S 1 2 2 c6TP (by decide) (by decide)
      (by decide) (by decide) (by decide) (by decide) (by decide)
      (by decide)).2 (by decide)⟩

/-! ### C7: voiding a sale -/

/-- Sum of line-item quantities of one product on a sale. -/
def detailSum (details : List SaleDetail) (pid : Nat) : Int :=
  ((details.filter fun d => d.product_id == pid).map fun d => d.quantity).sum

theorem detailSum_nil (pid : Nat) : detailSum [] pid = 0 := rfl

theorem detailSum_cons (d : SaleDetail) (ds : List SaleDetail) (pid : Nat) :
    detailSum (d :: ds) pid =
      (if d.product_id = pid then d.quantity else 0) + detailSum ds pid := by
  by_cases h : d.product_id = pid
  · simp [detailSum, List.filter_cons, h]
  · simp [detailSum, List.filter_cons, h]

theorem restoreDetail_customers (s : State) (d : SaleDetail) :
    (restoreDetail s d).customers = s.customers := by
  unfold restoreDetail
  cases firstActiveInv s d.product_id <;> rfl

theorem restoreDetail_suppliers (s : State) (d : SaleDetail) :
    (restoreDetail s d).suppliers = s.suppliers := by
  unfold restoreDetail
  cases firstActiveInv s d.product_id <;> rfl

theorem restoreDetail_ledger (s : State) (d : SaleDetail) :
    (restoreDetail s d).account_ledger = s.account_ledger := by
  unfold restoreDetail
  cases firstActiveInv s d.product_id <;> rfl

theorem restoreDetail_sales (s : State) (d : SaleDetail) :
    (restoreDetail s d).sales = s.sales := by
  unfold restoreDetail
  cases firstActiveInv s d.product_id <;> rfl

/-- The id-wellformedness invariant: batch ids are unique and below the
auto-increment counter. -/
def invWF (s : State) : Prop :=
  (s.inventory.map fun i => i.inventory_id).Nodup ∧
    ∀ i ∈ s.inventory, i.inventory_id < s.next_inventory_id

instance (s : State) : Decidable (invWF s) := by
  unfold invWF
  infer_instance

theorem incStock_invWF {s : State} (iid : Nat) (q : Int) (h : invWF s) :
    invWF (incStock s iid q) := by
  obtain ⟨hnd, hb⟩ := h
  constructor
  · rw [incStock_ids]
    exact hnd
  · intro i hi
    rcases List.mem_map.mp hi with ⟨j, hj, rfl⟩
    by_cases hbeq : j.inventory_id == iid <;> simp [hbeq] <;> exact hb j hj

theorem restoreDetail_invWF {s : State} (d : SaleDetail) (h : invWF s) :
    invWF (restoreDetail s d) := by
  unfold restoreDetail
  cases hfa : firstActiveInv s d.product_id with
  | some inv =>
    have h2 := incStock_invWF inv.inventory_id d.quantity h
    exact ⟨h2.1, h2.2⟩
  | none =>
    obtain ⟨hnd, hb⟩ := h
    constructor
    · simp only [List.map_append, List.map_cons, List.map_nil]
      rw [List.nodup_append]
      refine ⟨hnd, List.nodup_singleton _, ?_⟩
      intro x hx
      simp only [List.mem_singleton]
      rcases List.mem_map.mp hx with ⟨j, hj, rfl⟩
      exact fun he => absurd (he ▸ hb j hj) (lt_irrefl _)
    · intro i hi
      rcases List.mem_append.mp hi with hi | hi
      · exact Nat.lt_succ_of_lt (hb i hi)
      · rw [List.mem_singleton.mp hi]
        exact Nat.lt_succ_self _

theorem restoreDetail_totalOnHand {s : State} (d : SaleDetail) (pid : Nat)
    (h : invWF s) :
    totalOnHand (restoreDetail s d) pid =
      totalOnHand s pid + (if d.product_id = pid then d.quantity else 0) := by
  unfold restoreDetail
  cases hfa : firstActiveInv s d.product_id with
  | some inv =>
    obtain ⟨hmem, hprod, hact⟩ := firstActiveInv_some hfa
    show totalOnHand (incStock s inv.inventory_id d.quantity) pid = _
    rw [totalOnHand_incStock pid d.quantity h.1 hmem, hprod, hact]
    simp
  | none =>
    have := totalOnHand_appendRow s
      { inventory_id := s.next_inventory_id, product_id := d.product_id,
        current_stock := d.quantity, is_active := true,
        expiration_date := none } pid
    simp only [totalOnHand] at this ⊢
    rw [this]
    simp

/-- Effect of the full restore loop of `voidSale`. -/
theorem restoreFold : ∀ (details : List SaleDetail) (s : State), invWF s →
    invWF (details.foldl restoreDetail s) ∧
    (∀ pid, totalOnHand (details.foldl restoreDetail s) pid =
      totalOnHand s pid + detailSum details pid) ∧
    (details.foldl restoreDetail s).customers = s.customers ∧
    (details.foldl restoreDetail s).suppliers = s.suppliers ∧
    (details.foldl restoreDetail s).account_ledger = s.account_ledger ∧
    (details.foldl restoreDetail s).sales = s.sales
  | [], s, h => by
    refine ⟨h, fun pid => ?_, rfl, rfl, rfl, rfl⟩
    simp [detailSum]
  | d :: ds, s, h => by
    have hstep := restoreDetail_invWF d h
    have hrec := restoreFold ds (restoreDetail s d) hstep
    have hfold : (d :: ds).foldl restoreDetail s =
        ds.foldl restoreDetail (restoreDetail s d) := rfl
    rw [hfold]
    refine ⟨hrec.1, fun pid => ?_, ?_, ?_, ?_, ?_⟩
    · rw [hrec.2.1 pid, restoreDetail_totalOnHand d pid h, detailSum_cons]
      ring
    · rw [hrec.2.2.1, restoreDetail_customers]
    · rw [hrec.2.2.2.1, restoreDetail_suppliers]
    · rw [hrec.2.2.2.2.1, restoreDetail_ledger]
    · rw [hrec.2.2.2.2.2, restoreDetail_sales]

theorem totalOnHand_congr {s1 s2 : State} (h : s1.inventory = s2.inventory)
    (pid : Nat) : totalOnHand s1 pid = totalOnHand s2 pid := by
  unfold totalOnHand
  rw [h]

theorem findSale_congr {s1 s2 : State} (h : s1.sales = s2.sales) (sid : Nat) :
    findSale s1 sid = findSale s2 sid := by
  unfold findSale
  rw [h]

theorem customerExists_congr {s1 s2 : State}
    (h : s1.customers = s2.customers) (cid : Nat) :
    customerExists s1 cid = customerExists s2 cid := by
  unfold customerExists
  rw [h]

/-- `find?` after the soft-delete map of `markSaleInactive`. -/
theorem find?_markSale : ∀ (l : List Sale) (sid : Nat),
    ((l.map fun sa =>
        if sa.sale_id == sid then { sa with is_active := false } else sa).find?
      fun sa => sa.sale_id == sid) =
      (l.find? fun sa => sa.sale_id == sid).map
        fun sa => { sa with is_active := false }
  | [], _ => rfl
  | a :: t, sid => by
    by_cases h : (a.sale_id == sid) = true
    · rw [List.map_cons, if_pos h,
        @List.find?_cons_of_pos Sale (fun sa => sa.sale_id == sid)
          { a with is_active := false } _ (by simpa using h),
        @List.find?_cons_of_pos Sale (fun sa => sa.sale_id == sid) a t h]
      rfl
    · rw [List.map_cons, if_neg h,
        @List.find?_cons_of_neg Sale (fun sa => sa.sale_id == sid) a _ h,
        @List.find?_cons_of_neg Sale (fun sa => sa.sale_id == sid) a t h]
      exact find?_markSale t sid

theorem findSale_markSaleInactive (s : State) (sid : Nat) :
    findSale (markSaleInactive s sid) sid =
      (findSale s sid).map fun sa => { sa with is_active := false } := by
  unfold findSale markSaleInactive
  exact find?_markSale s.sales sid

/-- Characterization of the credit-reversal step of `voidSale`. -/
theorem voidCredit_spec {s1 : State} {sale : Sale} {s2 : State}
    (h : voidCredit s1 sale = .ok s2) :
    s2.inventory = s1.inventory ∧ s2.sales = s1.sales ∧
    s2.suppliers = s1.suppliers ∧
    ((∃ cid, sale.customer_id = some cid ∧
        sale.sale_status ≠ SaleStatus.PAID ∧
        s2.customers = s1.customers.map (fun c =>
          if c.customer_id == cid then
            { c with credit_balance := c.credit_balance -
                (sale.total_amount - sale.amount_paid) }
          else c) ∧
        s2.account_ledger = s1.account_ledger ++
          [{ account_type := AccountType.customer, account_id := cid,
             reference_type := RefType.VOID_SALE,
             reference_id := some sale.sale_id,
             debit := 0, credit := sale.total_amount - sale.amount_paid }]) ∨
     ((sale.customer_id = none ∨ sale.sale_status = SaleStatus.PAID) ∧
       s2.customers = s1.customers ∧
       s2.account_ledger = s1.account_ledger)) := by
  cases hc : sale.customer_id with
  | none =>
    simp only [voidCredit, hc, Pure.pure, Except.pure] at h
    cases h
    exact ⟨rfl, rfl, rfl, Or.inr ⟨Or.inl rfl, rfl, rfl⟩⟩
  | some cid =>
    simp only [voidCredit, hc, Pure.pure, Except.pure] at h
    by_cases hst : sale.sale_status = SaleStatus.PAID
    · simp only [hst, ne_eq, not_true_eq_false, if_false] at h
      cases h
      exact ⟨rfl, rfl, rfl, Or.inr ⟨Or.inr hst, rfl, rfl⟩⟩
    · simp only [hst, ne_eq, not_false_eq_true, if_true] at h
      by_cases hce : customerExists s1 cid = true
      · simp only [hce, if_true] at h
        cases h
        refine ⟨by simp [decCustomerBalance], by simp [decCustomerBalance],
          by simp [decCustomerBalance],
          Or.inl ⟨cid, rfl, hst, by simp [decCustomerBalance],
            by simp [decCustomerBalance]⟩⟩
      · simp only [hce, Bool.false_eq_true, if_false] at h
        cases h

/-- C7: voiding an already-inactive sale fails with AlreadyVoided and
leaves the state untouched; voiding an active sale restores each line
item's quantity to the product's on-hand total, marks the sale inactive,
and posts an equal-and-opposite customer ledger credit exactly when the
sale had a customer and was not PAID (the condition under which
`createSale` posts its debit). -/
theorem C7_voidSale (s : State) (sid : Nat) (sale : Sale)
    (hfind : findSale s sid = some sale)
    (hwf : invWF s)
    (hcust : ∀ cid, sale.customer_id = some cid →
      sale.sale_status ≠ SaleStatus.PAID → customerExists s cid = true) :
    (sale.is_active = false → voidSale s sid = (s, .error .alreadyVoided)) ∧
    (sale.is_active = true →
      ∃ s3, voidSale s sid = (s3, .ok sale) ∧
        (∀ pid, totalOnHand s3 pid =
          totalOnHand s pid + detailSum sale.sale_details pid) ∧
        findSale s3 sid = some { sale with is_active := false } ∧
        ((∃ cid, sale.customer_id = some cid ∧
            sale.sale_status ≠ SaleStatus.PAID ∧
            s3.account_ledger = s.account_ledger ++
              [{ account_type := AccountType.customer, account_id := cid,
                 reference_type := RefType.VOID_SALE,
                 reference_id := some sale.sale_id,
                 debit := 0,
                 credit := sale.total_amount - sale.amount_paid }]) ∨
         ((sale.customer_id = none ∨ sale.sale_status = SaleStatus.PAID) ∧
           s3.account_ledger = s.account_ledger))) := by
  constructor
  · intro hact
    have htx : voidSaleTx s sid = .error .alreadyVoided := by
      simp only [voidSaleTx, hfind, hact, if_pos]
      rfl
    simp [voidSale, htx]
  · intro hact
    obtain ⟨hwf1, htot, hcus, hsup, hled, hsal⟩ :=
      restoreFold sale.sale_details s hwf
    cases hvc : voidCredit (sale.sale_details.foldl restoreDetail s) sale with
    | error e =>
      exfalso
      cases hc : sale.customer_id with
      | none => simp [voidCredit, hc, Pure.pure, Except.pure] at hvc
      | some cid =>
        by_cases hst : sale.sale_status = SaleStatus.PAID
        · simp [voidCredit, hc, hst, Pure.pure, Except.pure] at hvc
        · have hce := hcust cid hc hst
          rw [← customerExists_congr hcus cid] at hce
          simp [voidCredit, hc, hst, hce, Pure.pure, Except.pure] at hvc
    | ok s2 =>
      obtain ⟨hinv2, hsal2, hsup2, hdisj⟩ := voidCredit_spec hvc
      have htx : voidSaleTx s sid = .ok (markSaleInactive s2 sid, sale) := by
        simp only [voidSaleTx, hfind, hact, Bool.true_eq_false, if_false,
          hvc, Bind.bind, Except.bind, Pure.pure, Except.pure]
      refine ⟨markSaleInactive s2 sid, by simp [voidSale, htx], ?_, ?_, ?_⟩
      · intro pid
        have h1 : (markSaleInactive s2 sid).inventory = s2.inventory := rfl
        rw [totalOnHand_congr h1 pid, totalOnHand_congr hinv2 pid, htot pid]
      · rw [findSale_markSaleInactive, findSale_congr hsal2,
          findSale_congr hsal, hfind]
        rfl
      · have h2 : (markSaleInactive s2 sid).account_ledger =
            s2.account_ledger := rfl
        rcases hdisj with ⟨cid, hc, hst, _, hl⟩ | ⟨hcond, _, hl⟩
        · exact Or.inl ⟨cid, hc, hst, by rw [h2, hl, hled]⟩
        · exact Or.inr ⟨hcond, by rw [h2, hl, hled]⟩

/-- The active credit sale voided in the C7 witness. -/
def c7Sale : Sale := ⟨1, some 1, 150, 0, SaleStatus.UNPAID, true, [⟨1, 3, 50⟩]⟩

/-- State for the C7 witness: the credit sale, its customer owing 150,
and 7 units left on hand. -/
def c7S : State :=
  { products := [⟨1, 50, none⟩],
    inventory := [⟨1, 1, 7, true, none⟩],
    customers := [⟨1, 150⟩], suppliers := [], sales := [c7Sale],
    stock_log := [],
    account_ledger := [⟨AccountType.customer, 1, RefType.SALE, some 1, 150, 0⟩],
    purchase_orders := [], supplies := [], transactions := [],
    next_inventory_id := 2, next_sale_id := 2, next_po_id := 1,
    next_supply_id := 1 }

/-- The same sale already voided, for the AlreadyVoided half. -/
def c7SaleV : Sale := ⟨1, some 1, 150, 0, SaleStatus.UNPAID, false, [⟨1, 3, 50⟩]⟩

/-- State for the AlreadyVoided half of the C7 witness. -/
def c7Sv : State := { c7S with sales := [c7SaleV] }

theorem C7_voidSale_witness :
    voidSale c7Sv 1 = (c7Sv, .error .alreadyVoided) ∧
    (∃ s3, voidSale c7S 1 = (s3, .ok c7Sale) ∧
      (∀ pid, totalOnHand s3 pid =
        totalOnHand c7S pid + detailSum c7Sale.sale_details pid) ∧
      findSale s3 1 = some { c7Sale with is_active := false } ∧
      ((∃ cid, c7Sale.customer_id = some cid ∧
          c7Sale.sale_status ≠ SaleStatus.PAID ∧
          s3.account_ledger = c7S.account_ledger ++
            [{ account_type := AccountType.customer, account_id := cid,
               reference_type := RefType.VOID_SALE,
               reference_id := some c7Sale.sale_id,
               debit := 0,
               credit := c7Sale.total_amount - c7Sale.amount_paid }]) ∨
       ((c7Sale.customer_id = none ∨ c7Sale.sale_status = SaleStatus.PAID) ∧
         s3.account_ledger = c7S.account_ledger))) :=
  ⟨(C7_voidSale c7Sv 1 c7SaleV (by decide) (by decide)
      (fun cid hcid _ => by
        simp [c7SaleV] at hcid
        subst hcid
        decide)).1 rfl,
   (C7_voidSale c7S 1 c7Sale (by decide) (by decide)
      (fun cid hcid _ => by
        simp [c7Sale] at hcid
        subst hcid
        decide)).2 rfl⟩

/-! ### C8: voiding a supply -/

/-- The stock held by the first active batch of a product (0 when none
exists) — the only batch `deleteSupply` deducts from. -/
def firstActiveStock (s : State) (pid : Nat) : Int :=
  match firstActiveInv s pid with
  | some inv => inv.current_stock
  | none => 0

theorem find?_map_of_pred_eq {α : Type} (f : α → α) (p : α → Bool)
    (hf : ∀ x, p (f x) = p x) : ∀ l : List α,
    (l.map f).find? p = (l.find? p).map f
  | [] => rfl
  | a :: t => by
    by_cases h : p a = true
    · rw [List.map_cons,
        List.find?_cons_of_pos _ ((hf a).trans h),
        List.find?_cons_of_pos _ h]
      rfl
    · rw [List.map_cons,
        List.find?_cons_of_neg _ (by rw [hf a]; exact h),
        List.find?_cons_of_neg _ h]
      exact find?_map_of_pred_eq f p hf t

/-- `findFirst` for a product commutes with a stock update (the predicate
never reads `current_stock`). -/
theorem firstActiveInv_setStock (s : State) (iid : Nat) (v : Int) (pid : Nat) :
    firstActiveInv (setStock s iid v) pid =
      (firstActiveInv s pid).map fun i =>
        if i.inventory_id == iid then { i with current_stock := v } else i := by
  unfold firstActiveInv setStock
  refine find?_map_of_pred_eq _ _ (fun x => ?_) s.inventory
  by_cases h : x.inventory_id == iid <;> simp [h]

theorem setStock_invWF {s : State} (iid : Nat) (v : Int) (h : invWF s) :
    invWF (setStock s iid v) := by
  obtain ⟨hnd, hb⟩ := h
  constructor
  · rw [setStock_ids]
    exact hnd
  · intro i hi
    rcases List.mem_map.mp hi with ⟨j, hj, rfl⟩
    by_cases hbeq : j.inventory_id == iid <;> simp [hbeq] <;> exact hb j hj

/-- With unique ids, updating the stock of a row of a different product
leaves another product's first active batch (and its stock) unchanged. -/
theorem firstActiveStock_setStock_ne {s : State} {row : Inventory}
    (hnd : (s.inventory.map fun i => i.inventory_id).Nodup)
    (hrow : row ∈ s.inventory) {pid : Nat} (hne : row.product_id ≠ pid)
    (v : Int) :
    firstActiveStock (setStock s row.inventory_id v) pid =
      firstActiveStock s pid := by
  unfold firstActiveStock
  rw [firstActiveInv_setStock]
  cases hfa : firstActiveInv s pid with
  | none => rfl
  | some inv =>
    obtain ⟨hmem, hprod, _⟩ := firstActiveInv_some hfa
    have hneq : inv.inventory_id ≠ row.inventory_id := by
      intro he
      have h2 := List.inj_on_of_nodup_map hnd hmem hrow he
      exact hne (h2 ▸ hprod)
    simp [hneq]

theorem removeSupplyDetail_suppliers (s : State) (d : SupplyDetail) :
    (removeSupplyDetail s d).suppliers = s.suppliers := by
  unfold removeSupplyDetail
  cases firstActiveInv s d.product_id <;> rfl

theorem removeSupplyDetail_supplies (s : State) (d : SupplyDetail) :
    (removeSupplyDetail s d).supplies = s.supplies := by
  unfold removeSupplyDetail
  cases firstActiveInv s d.product_id <;> rfl

theorem removeSupplyDetail_invWF {s : State} (d : SupplyDetail)
    (h : invWF s) : invWF (removeSupplyDetail s d) := by
  unfold removeSupplyDetail
  cases hfa : firstActiveInv s d.product_id with
  | some inv =>
    have h2 := setStock_invWF inv.inventory_id
      (max 0 (inv.current_stock - d.unit_quantity)) h
    exact ⟨h2.1, h2.2⟩
  | none => exact ⟨h.1, h.2⟩

/-- The per-detail stock effect of `deleteSupply`: the product total drops
by `min received (first-active-batch stock)`, a clamped deduction. -/
theorem removeSupplyDetail_totalOnHand {s : State} (d : SupplyDetail)
    (h : invWF s) (hq : 0 ≤ d.unit_quantity) :
    totalOnHand (removeSupplyDetail s d) d.product_id =
      totalOnHand s d.product_id -
        min d.unit_quantity (firstActiveStock s d.product_id) ∧
    (∀ pid, pid ≠ d.product_id →
      totalOnHand (removeSupplyDetail s d) pid = totalOnHand s pid) ∧
    (∀ pid, pid ≠ d.product_id →
      firstActiveStock (removeSupplyDetail s d) pid =
        firstActiveStock s pid) := by
  unfold removeSupplyDetail
  cases hfa : firstActiveInv s d.product_id with
  | some inv =>
    obtain ⟨hmem, hprod, hact⟩ := firstActiveInv_some hfa
    refine ⟨?_, ?_, ?_⟩
    · show totalOnHand (setStock s inv.inventory_id _) d.product_id = _
      rw [totalOnHand_setStock d.product_id _ h.1 hmem,
        if_pos ⟨hprod, hact⟩]
      unfold firstActiveStock
      simp only [hfa]
      rcases le_total d.unit_quantity inv.current_stock with hle | hle
      · rw [min_eq_left hle, max_eq_right (by omega)]
        ring
      · rw [min_eq_right hle, max_eq_left (by omega)]
        ring
    · intro pid hpid
      show totalOnHand (setStock s inv.inventory_id _) pid = _
      rw [totalOnHand_setStock pid _ h.1 hmem,
        if_neg (by rw [hprod]; exact fun hh => hpid hh.1.symm)]
      ring
    · intro pid hpid
      show firstActiveStock (setStock s inv.inventory_id _) pid = _
      have hne2 : inv.product_id ≠ pid := by
        rw [hprod]
        exact fun hh => hpid hh.symm
      exact firstActiveStock_setStock_ne h.1 hmem hne2 _
  | none =>
    refine ⟨?_, fun pid _ => rfl, fun pid _ => rfl⟩
    show totalOnHand s d.product_id = _
    unfold firstActiveStock
    simp only [hfa]
    rw [min_eq_right hq]
    ring

/-- The full reversal loop of `deleteSupply`, for supplies whose detail
lines concern pairwise-distinct products. -/
theorem removeFold : ∀ (details : List SupplyDetail) (s : State), invWF s →
    (details.map fun d => d.product_id).Nodup →
    (∀ d ∈ details, 0 ≤ d.unit_quantity) →
    invWF (details.foldl removeSupplyDetail s) ∧
    (details.foldl removeSupplyDetail s).suppliers = s.suppliers ∧
    (details.foldl removeSupplyDetail s).supplies = s.supplies ∧
    (∀ d ∈ details,
      totalOnHand (details.foldl removeSupplyDetail s) d.product_id =
        totalOnHand s d.product_id -
          min d.unit_quantity (firstActiveStock s d.product_id)) ∧
    (∀ pid, (∀ d ∈ details, d.product_id ≠ pid) →
      totalOnHand (details.foldl removeSupplyDetail s) pid = totalOnHand s pid)
  | [], s, h, _, _ => ⟨h, rfl, rfl, by simp, fun pid _ => rfl⟩
  | d :: ds, s, h, hnd, hq => by
    have hqd := hq d (by simp)
    have hstep := removeSupplyDetail_invWF d h
    have hlem := removeSupplyDetail_totalOnHand d h hqd
    have hndtl : (ds.map fun x => x.product_id).Nodup :=
      (List.nodup_cons.mp hnd).2
    have hhead : ∀ x ∈ ds, x.product_id ≠ d.product_id := by
      intro x hx he
      exact (List.nodup_cons.mp hnd).1 (List.mem_map.mpr ⟨x, hx, he⟩)
    have hrec := removeFold ds (removeSupplyDetail s d) hstep hndtl
      (fun x hx => hq x (by simp [hx]))
    have hfold : (d :: ds).foldl removeSupplyDetail s =
        ds.foldl removeSupplyDetail (removeSupplyDetail s d) := rfl
    rw [hfold]
    refine ⟨hrec.1, ?_, ?_, ?_, ?_⟩
    · rw [hrec.2.1, removeSupplyDetail_suppliers]
    · rw [hrec.2.2.1, removeSupplyDetail_supplies]
    · intro x hx
      rcases List.mem_cons.mp hx with rfl | hx2
      · rw [hrec.2.2.2.2 x.product_id (fun y hy => hhead y hy), hlem.1]
      · rw [hrec.2.2.2.1 x hx2,
          hlem.2.1 x.product_id (fun he => hhead x hx2 he),
          hlem.2.2 x.product_id (fun he => hhead x hx2 he)]
    · intro pid hnone
      rw [hrec.2.2.2.2 pid (fun y hy => hnone y (by simp [hy])),
        hlem.2.1 pid (fun he => hnone d (by simp) he.symm)]

/-- C8 (amended): voiding a supply succeeds and decreases the supplier's
payable by exactly the supply total, but each product's on-hand is only
deducted by `min received (first active batch's stock)` — the deduction is
clamped at zero (`Math.max(0, current - unit_quantity)`) and only hits the
first active batch, so it is NOT always the full received quantity. -/
theorem C8_deleteSupply_clamped (s : State) (sid : Nat) (sup : Supply)
    (supid : Nat)
    (hfind : s.supplies.find? (fun x => x.supply_id == sid) = some sup)
    (hsupid : sup.supplier_id = some supid)
    (hex : supplierExists s supid = true)
    (hwf : invWF s)
    (hnd : (sup.supply_details.map fun d => d.product_id).Nodup)
    (hq : ∀ d ∈ sup.supply_details, 0 ≤ d.unit_quantity) :
    ∃ s2, deleteSupply s sid = (s2, .ok ()) ∧
      s2.suppliers = s.suppliers.map (fun u =>
        if u.supplier_id == supid then
          { u with payable_balance := u.payable_balance - sup.total }
        else u) ∧
      (∀ d ∈ sup.supply_details, totalOnHand s2 d.product_id =
        totalOnHand s d.product_id -
          min d.unit_quantity (firstActiveStock s d.product_id)) ∧
      (∀ pid, (∀ d ∈ sup.supply_details, d.product_id ≠ pid) →
        totalOnHand s2 pid = totalOnHand s pid) := by
  obtain ⟨hwf1, hsups, _, htot, huntouched⟩ :=
    removeFold sup.supply_details s hwf hnd hq
  have hex1 : supplierExists (sup.supply_details.foldl removeSupplyDetail s)
      supid = true := by
    unfold supplierExists at hex ⊢
    rw [hsups]
    exact hex
  have hdel : deleteSupply s sid =
      ({ decSupplierBalance (sup.supply_details.foldl removeSupplyDetail s)
            supid sup.total with
          supplies := (decSupplierBalance
            (sup.supply_details.foldl removeSupplyDetail s)
            supid sup.total).supplies.filter fun x => x.supply_id != sid },
        .ok ()) := by
    simp only [deleteSupply, hfind, hsupid, hex1, if_true]
  refine ⟨_, hdel, ?_, ?_, ?_⟩
  · show (decSupplierBalance _ supid sup.total).suppliers = _
    unfold decSupplierBalance
    simp only
    rw [hsups]
  · intro d hd
    have h1 : ({ decSupplierBalance
        (sup.supply_details.foldl removeSupplyDetail s) supid sup.total with
        supplies := (decSupplierBalance
          (sup.supply_details.foldl removeSupplyDetail s)
          supid sup.total).supplies.filter fun x => x.supply_id != sid }).inventory =
        (sup.supply_details.foldl removeSupplyDetail s).inventory := rfl
    rw [totalOnHand_congr h1, htot d hd]
  · intro pid hp
    have h1 : ({ decSupplierBalance
        (sup.supply_details.foldl removeSupplyDetail s) supid sup.total with
        supplies := (decSupplierBalance
          (sup.supply_details.foldl removeSupplyDetail s)
          supid sup.total).supplies.filter fun x => x.supply_id != sid }).inventory =
        (sup.supply_details.foldl removeSupplyDetail s).inventory := rfl
    rw [totalOnHand_congr h1, huntouched pid hp]

/-- The supply of the C8 counterexample/witness: 10 units of product 1
received at cost 10.00 (total 100.00). -/
def c8Sup : Supply := ⟨5, some 1, 100, [⟨1, 10, 10⟩]⟩

/-- State for C8: supplier 1 owed 100.00, but only 3 units left on hand. -/
def c8S : State :=
  { products := [⟨1, 50, none⟩],
    inventory := [⟨1, 1, 3, true, none⟩],
    customers := [], suppliers := [⟨1, 100⟩], sales := [], stock_log := [],
    account_ledger := [], purchase_orders := [], supplies := [c8Sup],
    transactions := [],
    next_inventory_id := 2, next_sale_id := 1, next_po_id := 1,
    next_supply_id := 6 }

/-- C8 counterexample: voiding `c8Sup` succeeds but leaves product 1 at
0 on hand — a deduction of 3, not the 10 previously received, because
`Math.max(0, 3 - 10)` clamps at zero. -/
theorem C8_deleteSupply_counterexample :
    (deleteSupply c8S 5).2 = .ok () ∧
    totalOnHand (deleteSupply c8S 5).1 1 = 0 ∧
    totalOnHand c8S 1 - 10 ≠ 0 := by
  refine ⟨?_, ?_, by decide⟩ <;> decide

theorem C8_deleteSupply_clamped_witness :
    ∃ s2, deleteSupply c8S 5 = (s2, .ok ()) ∧
      s2.suppliers = c8S.suppliers.map (fun u =>
        if u.supplier_id == 1 then
          { u with payable_balance := u.payable_balance - c8Sup.total }
        else u) ∧
      (∀ d ∈ c8Sup.supply_details, totalOnHand s2 d.product_id =
        totalOnHand c8S d.product_id -
          min d.unit_quantity (firstActiveStock c8S d.product_id)) ∧
      (∀ pid, (∀ d ∈ c8Sup.supply_details, d.product_id ≠ pid) →
        totalOnHand s2 pid = totalOnHand c8S pid) :=
  C8_deleteSupply_clamped c8S 5 c8Sup 1 (by decide) (by decide) (by decide)
    (by decide) (by decide) (by decide)

/-! ### C5: FIFO order of batch consumption -/

/-- `finishSale` never touches the inventory. -/
theorem finishSale_inventory {s1 : State} {r : SaleReq} {subtotal : Money}
    {details : List SaleDetail} {s2 : State} {sale : Sale}
    (h : finishSale s1 r subtotal details = .ok (s2, sale)) :
    s2.inventory = s1.inventory := by
  cases hc : r.customerId with
  | none =>
    simp only [finishSale, hc, Bind.bind, Except.bind, Pure.pure,
      Except.pure] at h
    cases h
    rfl
  | some cid =>
    simp only [finishSale, hc, Bind.bind, Except.bind, Pure.pure,
      Except.pure] at h
    by_cases hst : saleStatusOf (paidAmountOf r.amountPaid subtotal) subtotal
        = SaleStatus.PAID
    · simp only [hst, ne_eq, not_true_eq_false, if_false] at h
      cases h
      rfl
    · simp only [hst, ne_eq, not_false_eq_true, if_true] at h
      by_cases hce : customerExists
          { s1 with
            sales := s1.sales ++
              [{ sale_id := s1.next_sale_id, customer_id := some cid,
                 total_amount := subtotal,
                 amount_paid := paidAmountOf r.amountPaid subtotal,
                 sale_status := saleStatusOf (paidAmountOf r.amountPaid subtotal)
                   subtotal,
                 is_active := true, sale_details := details }],
            next_sale_id := s1.next_sale_id + 1,
            stock_log := s1.stock_log ++ details.map fun d =>
              { product_id := d.product_id, change_type := ChangeType.SALE,
                quantity := -d.quantity } } cid = true
      · simp only [hce, if_true] at h
        cases h
        simp [incCustomerBalance]
      · simp only [hce, Bool.false_eq_true, if_false] at h
        cases h

/-- When the request names no customer, `finishSale` always succeeds. -/
theorem finishSale_none_ok (s1 : State) (r : SaleReq) (subtotal : Money)
    (details : List SaleDetail) (hc : r.customerId = none) :
    ∃ s2 sale, finishSale s1 r subtotal details = .ok (s2, sale) := by
  simp only [finishSale, hc, Bind.bind, Except.bind, Pure.pure, Except.pure]
  exact ⟨_, _, rfl⟩

/-- C5: FIFO by expiration in `createSale`.  The product's batches are
stored unsorted — a no-expiration batch first, then expirations e3, e1,
e2 with e1 < e2 < e3.  A quantity satisfiable by the earliest-expiring
batch alone decrements only that batch; a quantity spanning the two
earliest decrements them in order and leaves the later batch and the
no-expiration batch untouched. -/
theorem C5_fifo_expiration (pid : Nat) (p : Product) (price : Money)
    (e1 e2 e3 q0 q1 q2 q3 n : Int) (s : State) (disc : Money)
    (amt : Option Money)
    (hinv : s.inventory =
      [⟨10, pid, q0, true, none⟩, ⟨11, pid, q3, true, some e3⟩,
       ⟨12, pid, q1, true, some e1⟩, ⟨13, pid, q2, true, some e2⟩])
    (hfp : findProduct s pid = some p)
    (he12 : e1 < e2) (he23 : e2 < e3)
    (hq0 : 0 < q0) (hq1 : 0 < q1) (hq2 : 0 < q2) (hq3 : 0 < q3)
    (hn0 : 0 < n) :
    (n ≤ q1 →
      (∃ sale, (createSale s ⟨none, [⟨pid, n, some price⟩], disc, amt⟩).2 =
        .ok sale) ∧
      (createSale s ⟨none, [⟨pid, n, some price⟩], disc, amt⟩).1.inventory =
        [⟨10, pid, q0, true, none⟩, ⟨11, pid, q3, true, some e3⟩,
         ⟨12, pid, q1 - n, true, some e1⟩, ⟨13, pid, q2, true, some e2⟩]) ∧
    (q1 < n → n ≤ q1 + q2 →
      (∃ sale, (createSale s ⟨none, [⟨pid, n, some price⟩], disc, amt⟩).2 =
        .ok sale) ∧
      (createSale s ⟨none, [⟨pid, n, some price⟩], disc, amt⟩).1.inventory =
        [⟨10, pid, q0, true, none⟩, ⟨11, pid, q3, true, some e3⟩,
         ⟨12, pid, 0, true, some e1⟩,
         ⟨13, pid, q2 - (n - q1), true, some e2⟩]) := by
  have hfilter : (s.inventory.filter fun i =>
      i.product_id == pid && i.is_active && decide (0 < i.current_stock)) =
      [⟨10, pid, q0, true, none⟩, ⟨11, pid, q3, true, some e3⟩,
       ⟨12, pid, q1, true, some e1⟩, ⟨13, pid, q2, true, some e2⟩] := by
    rw [hinv]
    simp [List.filter_cons, hq0, hq1, hq2, hq3]
  have hsort : saleBatches s pid =
      [⟨12, pid, q1, true, some e1⟩, ⟨13, pid, q2, true, some e2⟩,
       ⟨11, pid, q3, true, some e3⟩, ⟨10, pid, q0, true, none⟩] := by
    unfold saleBatches
    rw [hfilter]
    simp [List.insertionSort, List.orderedInsert, invLe, expLe,
      le_of_lt he12, not_le.mpr he23, not_le.mpr (he12.trans he23)]
  have hsum : sumStocks (saleBatches s pid) = q1 + q2 + q3 + q0 := by
    rw [hsort]
    simp [sumStocks]
    ring
  constructor
  · intro hn1
    have hnotlt : ¬ sumStocks (saleBatches s pid) < n := by
      rw [hsum]
      omega
    have hplan : fifoPlan (saleBatches s pid) n =
        [(⟨12, pid, q1, true, some e1⟩, n)] := by
      rw [hsort]
      simp [fifoPlan, not_le.mpr hn0, min_eq_left hn1, sub_self]
    have hs1inv : (applyPlan s (fifoPlan (saleBatches s pid) n)).inventory =
        [⟨10, pid, q0, true, none⟩, ⟨11, pid, q3, true, some e3⟩,
         ⟨12, pid, q1 - n, true, some e1⟩, ⟨13, pid, q2, true, some e2⟩] := by
      rw [hplan]
      show (setStock s 12 (q1 - n)).inventory = _
      simp [setStock, hinv]
    have hpi : processItems s [⟨pid, n, some price⟩] =
        .ok (applyPlan s (fifoPlan (saleBatches s pid) n),
          (n : Money) * effectivePrice ⟨pid, n, some price⟩ p + 0,
          [⟨pid, n, effectivePrice ⟨pid, n, some price⟩ p⟩]) := by
      rw [processItems_cons_ok s ⟨pid, n, some price⟩ [] p hfp hnotlt,
        processItems_nil]
    obtain ⟨s2, sale, hfin⟩ := finishSale_none_ok
      (applyPlan s (fifoPlan (saleBatches s pid) n))
      ⟨none, [⟨pid, n, some price⟩], disc, amt⟩
      ((n : Money) * effectivePrice ⟨pid, n, some price⟩ p + 0)
      [⟨pid, n, effectivePrice ⟨pid, n, some price⟩ p⟩] rfl
    have htx : createSaleTx s ⟨none, [⟨pid, n, some price⟩], disc, amt⟩ =
        .ok (s2, sale) := by
      simp only [createSaleTx, hpi, Bind.bind, Except.bind, hfin]
    have hcs : createSale s ⟨none, [⟨pid, n, some price⟩], disc, amt⟩ =
        (s2, .ok sale) := by
      simp [createSale, htx]
    rw [hcs]
    exact ⟨⟨sale, rfl⟩, by rw [finishSale_inventory hfin, hs1inv]⟩
  · intro hq1n hn12
    have hnotlt : ¬ sumStocks (saleBatches s pid) < n := by
      rw [hsum]
      omega
    have hplan : fifoPlan (saleBatches s pid) n =
        [(⟨12, pid, q1, true, some e1⟩, q1),
         (⟨13, pid, q2, true, some e2⟩, n - q1)] := by
      rw [hsort]
      have hmin1 : min n q1 = q1 := min_eq_right (le_of_lt hq1n)
      have hg1 : ¬ (n - q1 ≤ 0) := by omega
      have hmin2 : min (n - q1) q2 = n - q1 := min_eq_left (by omega)
      simp [fifoPlan, not_le.mpr hn0, hmin1, hg1, hmin2, sub_self]
    have hs1inv : (applyPlan s (fifoPlan (saleBatches s pid) n)).inventory =
        [⟨10, pid, q0, true, none⟩, ⟨11, pid, q3, true, some e3⟩,
         ⟨12, pid, 0, true, some e1⟩,
         ⟨13, pid, q2 - (n - q1), true, some e2⟩] := by
      rw [hplan]
      show (setStock (setStock s 12 (q1 - q1)) 13 (q2 - (n - q1))).inventory = _
      simp [setStock, hinv]
    have hpi : processItems s [⟨pid, n, some price⟩] =
        .ok (applyPlan s (fifoPlan (saleBatches s pid) n),
          (n : Money) * effectivePrice ⟨pid, n, some price⟩ p + 0,
          [⟨pid, n, effectivePrice ⟨pid, n, some price⟩ p⟩]) := by
      rw [processItems_cons_ok s ⟨pid, n, some price⟩ [] p hfp hnotlt,
        processItems_nil]
    obtain ⟨s2, sale, hfin⟩ := finishSale_none_ok
      (applyPlan s (fifoPlan (saleBatches s pid) n))
      ⟨none, [⟨pid, n, some price⟩], disc, amt⟩
      ((n : Money) * effectivePrice ⟨pid, n, some price⟩ p + 0)
      [⟨pid, n, effectivePrice ⟨pid, n, some price⟩ p⟩] rfl
    have htx : createSaleTx s ⟨none, [⟨pid, n, some price⟩], disc, amt⟩ =
        .ok (s2, sale) := by
      simp only [createSaleTx, hpi, Bind.bind, Except.bind, hfin]
    have hcs : createSale s ⟨none, [⟨pid, n, some price⟩], disc, amt⟩ =
        (s2, .ok sale) := by
      simp [createSale, htx]
    rw [hcs]
    exact ⟨⟨sale, rfl⟩, by rw [finishSale_inventory hfin, hs1inv]⟩

/-- Concrete state for the C5 witness: four batches of product 1 stored
unsorted (no-expiration first, then expirations 3, 1, 2), 5 units each. -/
def c5S : State :=
  { products := [⟨1, 50, none⟩],
    inventory := [⟨10, 1, 5, true, none⟩, ⟨11, 1, 5, true, some 3⟩,
                  ⟨12, 1, 5, true, some 1⟩, ⟨13, 1, 5, true, some 2⟩],
    customers := [], suppliers := [], sales := [], stock_log := [],
    account_ledger := [], purchase_orders := [], supplies := [],
    transactions := [],
    next_inventory_id := 14, next_sale_id := 1, next_po_id := 1,
    next_supply_id := 1 }

theorem C5_fifo_expiration_witness :
    ((∃ sale, (createSale c5S ⟨none, [⟨1, 3, some 50⟩], 0, none⟩).2 =
        .ok sale) ∧
      (createSale c5S ⟨none, [⟨1, 3, some 50⟩], 0, none⟩).1.inventory =
        [⟨10, 1, 5, true, none⟩, ⟨11, 1, 5, true, some 3⟩,
         ⟨12, 1, 5 - 3, true, some 1⟩, ⟨13, 1, 5, true, some 2⟩]) ∧
    ((∃ sale, (createSale c5S ⟨none, [⟨1, 7, some 50⟩], 0, none⟩).2 =
        .ok sale) ∧
      (createSale c5S ⟨none, [⟨1, 7, some 50⟩], 0, none⟩).1.inventory =
        [⟨10, 1, 5, true, none⟩, ⟨11, 1, 5, true, some 3⟩,
         ⟨12, 1, 0, true, some 1⟩, ⟨13, 1, 5 - (7 - 5), true, some 2⟩]) :=
  ⟨(C5_fifo_expiration 1 ⟨1, 50, none⟩ 50 1 2 3 5 5 5 5 3 c5S 0 none
      (by decide) (by decide) (by decide) (by decide) (by decide) (by decide)
      (by decide) (by decide) (by decide)).1 (by decide),
   (C5_fifo_expiration 1 ⟨1, 50, none⟩ 50 1 2 3 5 5 5 5 7 c5S 0 none
      (by decide) (by decide) (by decide) (by decide) (by decide) (by decide)
      (by decide) (by decide) (by decide)).2 (by decide) (by decide)⟩

/-! ### C3: the ledger-balance reconciliation invariant -/

theorem ledgerSum_of_append {s s2 : State} {e : LedgerEntry}
    (h : s2.account_ledger = s.account_ledger ++ [e]) (t : AccountType)
    (aid : Nat) :
    ledgerSum s2 t aid = ledgerSum s t aid +
      (if e.account_type = t ∧ e.account_id = aid then e.debit - e.credit
       else 0) := by
  unfold ledgerSum
  rw [h, List.filter_append]
  by_cases hp : e.account_type = t ∧ e.account_id = aid
  · have : (List.filter (fun x => x.account_type == t && x.account_id == aid)
        [e]) = [e] := by
      simp [hp.1, hp.2]
    rw [this, List.map_append, List.sum_append, if_pos hp]
    simp
  · have : (List.filter (fun x => x.account_type == t && x.account_id == aid)
        [e]) = [] := by
      rcases not_and_or.mp hp with h1 | h1 <;> simp [h1]
    rw [this, if_neg hp]
    simp

theorem ledgerSum_congr {s s2 : State}
    (h : s2.account_ledger = s.account_ledger) (t : AccountType) (aid : Nat) :
    ledgerSum s2 t aid = ledgerSum s t aid := by
  unfold ledgerSum
  rw [h]

/-- Reconciliation only reads the two account tables and the ledger. -/
theorem reconciled_of_unchanged {s s2 : State}
    (hc : s2.customers = s.customers) (hu : s2.suppliers = s.suppliers)
    (hl : s2.account_ledger = s.account_ledger) (h : reconciled s) :
    reconciled s2 := by
  constructor
  · intro c hcm
    rw [hc] at hcm
    rw [ledgerSum_congr hl]
    exact h.1 c hcm
  · intro u hum
    rw [hu] at hum
    rw [ledgerSum_congr hl]
    exact h.2 u hum

/-- The core preservation argument: transforming the customer table by a
row map `f` that adds `delta` to the balances of the rows with one id
(and nothing else), while appending one matching ledger entry with signed
amount `delta`, keeps the invariant. -/
theorem reconciled_customer_update (s s2 : State) (cid : Nat) (delta : Money)
    (e : LedgerEntry) (f : Customer → Customer)
    (hcust : s2.customers = s.customers.map f)
    (hledg : s2.account_ledger = s.account_ledger ++ [e])
    (hsups : s2.suppliers = s.suppliers)
    (het : e.account_type = AccountType.customer) (hei : e.account_id = cid)
    (hdc : e.debit - e.credit = delta)
    (hf : ∀ c ∈ s.customers, (f c).customer_id = c.customer_id ∧
      (f c).credit_balance = c.credit_balance +
        (if c.customer_id = cid then delta else 0))
    (h : reconciled s) : reconciled s2 := by
  constructor
  · intro c2 hc2
    rw [hcust] at hc2
    obtain ⟨c, hc, rfl⟩ := List.mem_map.mp hc2
    rw [ledgerSum_of_append hledg, (hf c hc).2, (hf c hc).1]
    by_cases hid : c.customer_id = cid
    · rw [if_pos hid, if_pos ⟨het, hei.trans hid.symm⟩, hdc, h.1 c hc]
    · rw [if_neg hid, if_neg (fun hh => hid (hei.symm.trans hh.2).symm),
        h.1 c hc]
  · intro u hu
    rw [hsups] at hu
    rw [ledgerSum_of_append hledg,
      if_neg (fun hh => by rw [het] at hh; cases hh.1), h.2 u hu]
    ring

/-- Supplier analog of `reconciled_customer_update`. -/
theorem reconciled_supplier_update (s s2 : State) (sid : Nat) (delta : Money)
    (e : LedgerEntry) (f : Supplier → Supplier)
    (hsups : s2.suppliers = s.suppliers.map f)
    (hledg : s2.account_ledger = s.account_ledger ++ [e])
    (hcust : s2.customers = s.customers)
    (het : e.account_type = AccountType.supplier) (hei : e.account_id = sid)
    (hdc : e.debit - e.credit = delta)
    (hf : ∀ u ∈ s.suppliers, (f u).supplier_id = u.supplier_id ∧
      (f u).payable_balance = u.payable_balance +
        (if u.supplier_id = sid then delta else 0))
    (h : reconciled s) : reconciled s2 := by
  constructor
  · intro c hc
    rw [hcust] at hc
    rw [ledgerSum_of_append hledg,
      if_neg (fun hh => by rw [het] at hh; cases hh.1), h.1 c hc]
    ring
  · intro u2 hu2
    rw [hsups] at hu2
    obtain ⟨u, hu, rfl⟩ := List.mem_map.mp hu2
    rw [ledgerSum_of_append hledg, (hf u hu).2, (hf u hu).1]
    by_cases hid : u.supplier_id = sid
    · rw [if_pos hid, if_pos ⟨het, hei.trans hid.symm⟩, hdc, h.2 u hu]
    · rw [if_neg hid, if_neg (fun hh => hid (hei.symm.trans hh.2).symm),
        h.2 u hu]

/-- The item loop touches neither account balances nor the ledger. -/
theorem processItems_accounts : ∀ (items : List SaleItem) (s s2 : State)
    (sub : Money) (ds : List SaleDetail),
    processItems s items = .ok (s2, sub, ds) →
    s2.customers = s.customers ∧ s2.suppliers = s.suppliers ∧
      s2.account_ledger = s.account_ledger
  | [], s, s2, sub, ds, h => by
    rw [processItems_nil] at h
    cases h
    exact ⟨rfl, rfl, rfl⟩
  | it :: rest, s, s2, sub, ds, h => by
    cases hp : findProduct s it.productId with
    | none =>
      rw [processItems_cons_none s it rest hp] at h
      cases h
    | some p =>
      by_cases hlt : sumStocks (saleBatches s it.productId) < it.quantity
      · rw [processItems_cons_insufficient s it rest p hp hlt] at h
        cases h
      · rw [processItems_cons_ok s it rest p hp hlt] at h
        cases hrec : processItems
            (applyPlan s (fifoPlan (saleBatches s it.productId) it.quantity))
            rest with
        | error e =>
          rw [hrec] at h
          cases h
        | ok v =>
          obtain ⟨s3, sub2, ds2⟩ := v
          rw [hrec] at h
          cases h
          have := processItems_accounts rest _ _ _ _ hrec
          refine ⟨?_, ?_, ?_⟩
          · rw [this.1, applyPlan_customers]
          · rw [this.2.1, applyPlan_suppliers]
          · rw [this.2.2, applyPlan_ledger]

/-- The restore loop of `voidSale` touches no account data. -/
theorem restoreFold_accounts : ∀ (ds : List SaleDetail) (s : State),
    (ds.foldl restoreDetail s).customers = s.customers ∧
    (ds.foldl restoreDetail s).suppliers = s.suppliers ∧
    (ds.foldl restoreDetail s).account_ledger = s.account_ledger
  | [], _ => ⟨rfl, rfl, rfl⟩
  | d :: ds, s => by
    have hrec := restoreFold_accounts ds (restoreDetail s d)
    have hfold : (d :: ds).foldl restoreDetail s =
        ds.foldl restoreDetail (restoreDetail s d) := rfl
    rw [hfold]
    exact ⟨by rw [hrec.1, restoreDetail_customers],
      by rw [hrec.2.1, restoreDetail_suppliers],
      by rw [hrec.2.2, restoreDetail_ledger]⟩

/-- `createSale` preserves the reconciliation invariant. -/
theorem reconciled_createSale (s : State) (r : SaleReq) (h : reconciled s) :
    reconciled (createSale s r).1 := by
  by_cases hempty : r.items.isEmpty = true
  · simp [createSale, hempty]
    exact h
  · simp only [createSale, hempty, Bool.false_eq_true, if_false]
    cases htx : createSaleTx s r with
    | error e => exact h
    | ok v =>
      obtain ⟨s5, sale⟩ := v
      show reconciled s5
      cases hpi : processItems s r.items with
      | error e =>
        rw [createSaleTx_error hpi] at htx
        cases htx
      | ok w =>
        obtain ⟨s1, subtotal, details⟩ := w
        simp only [createSaleTx, hpi, Bind.bind, Except.bind] at htx
        obtain ⟨hcus1, hsup1, hled1⟩ :=
          processItems_accounts r.items s s1 subtotal details hpi
        have h1 : reconciled s1 := reconciled_of_unchanged hcus1 hsup1 hled1 h
        obtain ⟨-, hsup5, hdisj⟩ := finishSale_state htx
        rcases hdisj with ⟨hcus5, hled5⟩ | ⟨cid, -, hcus5, hled5⟩
        · exact reconciled_of_unchanged hcus5 hsup5 hled5 h1
        · refine reconciled_customer_update s1 s5 cid
            (subtotal - paidAmountOf r.amountPaid subtotal) _ _
            hcus5 hled5 hsup5 rfl rfl (sub_zero _) (fun c _ => ?_) h1
          by_cases hbeq : (c.customer_id == cid) = true
          · have hid : c.customer_id = cid := by simpa using hbeq
            simp [hbeq, hid]
          · have hid : ¬ c.customer_id = cid := by simpa using hbeq
            simp [hbeq, hid]

/-- `voidSale` preserves the reconciliation invariant. -/
theorem reconciled_voidSale (s : State) (sid : Nat) (h : reconciled s) :
    reconciled (voidSale s sid).1 := by
  cases hfs : findSale s sid with
  | none =>
    have htx : voidSaleTx s sid = .error .saleNotFound := by
      simp only [voidSaleTx, hfs]
      rfl
    simp only [voidSale, htx]
    exact h
  | some sale =>
    by_cases hact : sale.is_active = false
    · have htx : voidSaleTx s sid = .error .alreadyVoided := by
        simp only [voidSaleTx, hfs, hact, if_pos]
        rfl
      simp only [voidSale, htx]
      exact h
    · cases hvc : voidCredit (sale.sale_details.foldl restoreDetail s) sale
        with
      | error e =>
        have htx : voidSaleTx s sid = .error e := by
          simp only [voidSaleTx, hfs, hact, Bool.false_eq_true, if_false,
            hvc, Bind.bind, Except.bind]
          rfl
        simp only [voidSale, htx]
        exact h
      | ok s2 =>
        have htx : voidSaleTx s sid = .ok (markSaleInactive s2 sid, sale) := by
          simp only [voidSaleTx, hfs, hact, Bool.false_eq_true, if_false,
            hvc, Bind.bind, Except.bind, Pure.pure, Except.pure]
          rfl
        have hv1 : (voidSale s sid).1 = markSaleInactive s2 sid := by
          simp [voidSale, htx]
        rw [hv1]
        obtain ⟨hcus1, hsup1, hled1⟩ :=
          restoreFold_accounts sale.sale_details s
        have h1 : reconciled (sale.sale_details.foldl restoreDetail s) :=
          reconciled_of_unchanged hcus1 hsup1 hled1 h
        obtain ⟨-, -, hsup2, hdisj⟩ := voidCredit_spec hvc
        have h2 : reconciled s2 := by
          rcases hdisj with ⟨cid, -, -, hcus2, hled2⟩ | ⟨-, hcus2, hled2⟩
          · refine reconciled_customer_update _ s2 cid
              (-(sale.total_amount - sale.amount_paid)) _ _
              hcus2 hled2 hsup2 rfl rfl (zero_sub _) (fun c _ => ?_) h1
            by_cases hbeq : (c.customer_id == cid) = true
            · have hid : c.customer_id = cid := by simpa using hbeq
              simp [hbeq, hid, sub_eq_add_neg]
            · have hid : ¬ c.customer_id = cid := by simpa using hbeq
              simp [hbeq, hid]
          · exact reconciled_of_unchanged hcus2 hsup2 hled2 h1
        exact reconciled_of_unchanged rfl rfl rfl h2

/-- Customer payments preserve the reconciliation invariant. -/
theorem reconciled_custPay (s : State) (cid : Nat) (a : Money)
    (h : reconciled s) : reconciled (recordCustomerPayment s cid a).1 := by
  by_cases ha : a ≤ 0
  · simp only [recordCustomerPayment, ha, if_true]
    exact h
  · simp only [recordCustomerPayment, ha, if_false]
    cases hfc : s.customers.find? (fun c => c.customer_id == cid) with
    | none => exact h
    | some c =>
      simp only
      have hcid : c.customer_id = cid := by
        have := List.find?_some hfc
        simpa using this
      have hcmem := List.mem_of_find?_eq_some hfc
      refine reconciled_customer_update s _ cid (-(min a c.credit_balance))
        { account_type := AccountType.customer, account_id := cid,
          reference_type := RefType.PAYMENT, reference_id := none,
          debit := 0, credit := min a c.credit_balance }
        (fun c2 => if c2.customer_id == cid then
          { c2 with credit_balance := c.credit_balance - min a c.credit_balance }
          else c2)
        (by simp [setCustomerBalance]) (by simp [setCustomerBalance]) rfl
        rfl rfl (zero_sub _) (fun c2 hc2 => ?_) h
      by_cases hbeq : (c2.customer_id == cid) = true
      · have hcid2 : c2.customer_id = cid := by simpa using hbeq
        have hb2 : c2.credit_balance = ledgerSum s AccountType.customer cid :=
          hcid2 ▸ h.1 c2 hc2
        have hb1 : c.credit_balance = ledgerSum s AccountType.customer cid :=
          hcid ▸ h.1 c hcmem
        refine ⟨by simp [hbeq], ?_⟩
        simp only [hbeq, if_true]
        rw [if_pos hcid2, hb2, ← hb1]
        ring
      · have hcid2 : ¬ c2.customer_id = cid := by simpa using hbeq
        simp [hbeq, hcid2]

/-- Supplier payments preserve the reconciliation invariant. -/
theorem reconciled_supPay (s : State) (sid : Nat) (a : Money)
    (h : reconciled s) : reconciled (recordSupplierPayment s sid a).1 := by
  by_cases ha : a ≤ 0
  · simp only [recordSupplierPayment, ha, if_true]
    exact h
  · simp only [recordSupplierPayment, ha, if_false]
    cases hfu : s.suppliers.find? (fun u => u.supplier_id == sid) with
    | none => exact h
    | some u =>
      simp only
      have hsid : u.supplier_id = sid := by
        have := List.find?_some hfu
        simpa using this
      have humem := List.mem_of_find?_eq_some hfu
      refine reconciled_supplier_update s _ sid (-(min a u.payable_balance))
        { account_type := AccountType.supplier, account_id := sid,
          reference_type := RefType.PAYMENT, reference_id := none,
          debit := 0, credit := min a u.payable_balance }
        (fun u2 => if u2.supplier_id == sid then
          { u2 with payable_balance := u.payable_balance - min a u.payable_balance }
          else u2)
        (by simp [setSupplierBalance]) (by simp [setSupplierBalance]) rfl
        rfl rfl (zero_sub _) (fun u2 hu2 => ?_) h
      by_cases hbeq : (u2.supplier_id == sid) = true
      · have hsid2 : u2.supplier_id = sid := by simpa using hbeq
        have hb2 : u2.payable_balance = ledgerSum s AccountType.supplier sid :=
          hsid2 ▸ h.2 u2 hu2
        have hb1 : u.payable_balance = ledgerSum s AccountType.supplier sid :=
          hsid ▸ h.2 u humem
        refine ⟨by simp [hbeq], ?_⟩
        simp only [hbeq, if_true]
        rw [if_pos hsid2, hb2, ← hb1]
        ring
      · have hsid2 : ¬ u2.supplier_id = sid := by simpa using hbeq
        simp [hbeq, hsid2]

/-! ## Claim C3: ledger-balance reconciliation -/

/-- A reconciled starting state: one product, one customer with zero
credit balance, and an empty ledger. -/
def c3S : State :=
  { products := [⟨1, 50, none⟩], inventory := [],
    customers := [⟨1, 0⟩], suppliers := [], sales := [], stock_log := [],
    account_ledger := [], purchase_orders := [], supplies := [],
    transactions := [], next_inventory_id := 1, next_sale_id := 1,
    next_po_id := 1, next_supply_id := 1 }

/-- C3 counterexample: `createPurchaseOrder` is one of the claimed core
operations, yet it posts a 100.00 customer ledger debit without touching
the customer's cached `credit_balance`, so a reconciled state stops being
reconciled after one successful purchase-order creation. -/
theorem C3_reconciliation_counterexample :
    reconciled c3S ∧
    (createPurchaseOrder c3S 1 [⟨1, 2⟩] 100).2 =
      Except.ok ⟨1, 1, PoStatus.PENDING, 100, [⟨0, 1, 2⟩]⟩ ∧
    ¬ reconciled (createPurchaseOrder c3S 1 [⟨1, 2⟩] 100).1 := by
  have hstate : (createPurchaseOrder c3S 1 [⟨1, 2⟩] 100).1 =
      { c3S with
          purchase_orders := [⟨1, 1, PoStatus.PENDING, 100, [⟨0, 1, 2⟩]⟩],
          next_po_id := 2,
          account_ledger := [⟨AccountType.customer, 1, RefType.PURCHASE_ORDER,
            some 1, 100, 0⟩] } := rfl
  refine ⟨by decide, rfl, ?_⟩
  rw [hstate]
  intro h
  have h1 := h.1 ⟨1, 0⟩ (by simp [c3S])
  norm_num [ledgerSum, c3S] at h1

/-- **C3** (amended): balance/ledger reconciliation holds across the core
operations that both cache a balance and post a ledger entry.  Starting
from any reconciled state, every sequence of `createSale`, `voidSale`,
customer payments and supplier payments leaves every customer's cached
`credit_balance` and every supplier's cached `payable_balance` equal to
the signed sum Σ(debit) − Σ(credit) of that account's ledger entries.
(The original claim over the full operation set is false: purchase-order
creation/cancellation post ledger entries without a balance update, and
supply creation/void update the payable balance without ledger entries —
see the counterexample.) -/
theorem C3_core_ops_preserve_reconciliation (s : State) (ops : List CoreOp)
    (h : reconciled s) : reconciled (applyOps s ops) := by
  induction ops generalizing s with
  | nil => exact h
  | cons op rest ih =>
    cases op with
    | sale r => exact ih _ (reconciled_createSale s r h)
    | voidS sid => exact ih _ (reconciled_voidSale s sid h)
    | custPay cid a => exact ih _ (reconciled_custPay s cid a h)
    | supPay sid a => exact ih _ (reconciled_supPay s sid a h)

/-- Witness for C3: the concrete state `c3S` is reconciled, and it stays
reconciled across a concrete sequence of core operations. -/
theorem C3_core_ops_preserve_reconciliation_witness :
    reconciled c3S ∧
    reconciled (applyOps c3S [CoreOp.custPay 1 5, CoreOp.voidS 1]) :=
  ⟨by decide, C3_core_ops_preserve_reconciliation c3S
    [CoreOp.custPay 1 5, CoreOp.voidS 1] (by decide)⟩

end M2IM
